import Mathlib

/-!
Verification of the FLOWISE-API backend (students / issues / summary-reports
controllers and the e-mail template service).

JavaScript strings are modelled as lists of characters (`Str`), so that the
string primitives the controllers use (`trim`, `toLowerCase`, `split('\n')`,
`replace`, `includes`) become structurally recursive Lean functions that can
be reasoned about by induction.  Each controller function is translated from
the repository source; the database is modelled as the list of stored
documents and each request handler as a pure function from the parsed request
body and the current database to an outcome (new database, response,
e-mail side effects).
-/

/-- Characters of a JavaScript string. -/
abbrev Str := List Char

/-- Character list of a Lean string literal. -/
def lit (s : String) : Str := s.data

/-- Whitespace recognised by the model of `String.prototype.trim`. -/
def isWsChar (c : Char) : Bool := c = ' ' || c = '\t' || c = '\n' || c = '\r'

/-- Removal of leading whitespace. -/
def trimLeft (s : Str) : Str := s.dropWhile isWsChar

/-- Removal of trailing whitespace. -/
def trimRight (s : Str) : Str := (s.reverse.dropWhile isWsChar).reverse

/-- Model of `String.prototype.trim`. -/
def jsTrim (s : Str) : Str := trimRight (trimLeft s)

/-- Model of `String.prototype.toLowerCase`. -/
def jsToLower (s : Str) : Str := s.map Char.toLower

/-- JavaScript `x || ''` applied to a possibly-absent string. -/
def orEmpty : Option Str → Str
  | some s => s
  | none => []

/-- Truthiness of a possibly-absent string field (absent and `''` are falsy). -/
def truthy : Option Str → Bool
  | some s => !s.isEmpty
  | none => false

/-- Concatenation of a list of lists (JavaScript `Array.prototype.join('')`). -/
def concatAll {α : Type} (l : List (List α)) : List α := l.foldr (· ++ ·) []

/-- Model of the global single-character regex replace `s.replace(/c/g, rep)`. -/
def replaceChar (c : Char) (rep : Str) : Str → Str
  | [] => []
  | x :: xs => (if x = c then rep else [x]) ++ replaceChar c rep xs

/-- Model of `String.prototype.startsWith` used to build `includes`. -/
def hasPrefixL : Str → Str → Bool
  | [], _ => true
  | _ :: _, [] => false
  | n :: ns, h :: hs => n = h && hasPrefixL ns hs

/-- Model of `String.prototype.includes`. -/
def strIncludes (needle : Str) : Str → Bool
  | [] => needle.isEmpty
  | c :: cs => hasPrefixL needle (c :: cs) || strIncludes needle cs

/-- Model of `String.prototype.split('\n')`. -/
def splitNl : Str → List Str
  | [] => [[]]
  | c :: cs =>
    match splitNl cs with
    | [] => [[]]
    | h :: t => if c = '\n' then [] :: h :: t else (c :: h) :: t

/-- The chunks kept by the legacy transformation: trim each chunk, drop
empty ones. -/
def cleanChunks (xs : List Str) : List Str :=
  (xs.map jsTrim).filter (fun l => !l.isEmpty)

/-- The claim-side description of the legacy string-to-array transformation:
the newline-separated lines of `s`, each trimmed, with empty lines removed. -/
def cleanLines (s : Str) : List Str := cleanChunks (splitNl s)

/-- The apostrophe character, escaped by `escapeHtml` to `&#39;`. -/
def aposChar : Char := Char.ofNat 39

/-- The double-quote character, escaped by `escapeHtml` to `&quot;`. -/
def quotChar : Char := Char.ofNat 34

/-- Model of `escapeHtml` from `src/services/emailTemplates/studentSubmission.ts`:
five sequential global replaces, the ampersand first. -/
def escapeHtml (value : Str) : Str :=
  replaceChar aposChar (lit "&#39;")
    (replaceChar quotChar (lit "&quot;")
      (replaceChar '>' (lit "&gt;")
        (replaceChar '<' (lit "&lt;")
          (replaceChar '&' (lit "&amp;") value))))

theorem mem_replaceChar {d c : Char} {rep s : Str}
    (hs : d ∉ s) (hrep : d ∉ rep) : d ∉ replaceChar c rep s := by
  induction s with
  | nil => simp [replaceChar]
  | cons x xs ih =>
    have hx : d ≠ x := fun h => hs (h ▸ List.mem_cons_self x xs)
    have hxs : d ∉ xs := fun h => hs (List.mem_cons_of_mem x h)
    intro hmem
    rw [replaceChar] at hmem
    rcases List.mem_append.1 hmem with h1 | h2
    · by_cases hc : x = c
      · rw [if_pos hc] at h1
        exact hrep h1
      · rw [if_neg hc] at h1
        exact hx (List.mem_singleton.1 h1)
    · exact ih hxs h2

theorem not_mem_replaceChar_self {c : Char} {rep : Str} (hrep : c ∉ rep) (s : Str) :
    c ∉ replaceChar c rep s := by
  induction s with
  | nil => simp [replaceChar]
  | cons x xs ih =>
    intro hmem
    rw [replaceChar] at hmem
    rcases List.mem_append.1 hmem with h1 | h2
    · by_cases hc : x = c
      · rw [if_pos hc] at h1
        exact hrep h1
      · rw [if_neg hc] at h1
        exact hc ((List.mem_singleton.1 h1).symm)
    · exact ih h2

theorem lt_not_mem_escapeHtml (s : Str) : '<' ∉ escapeHtml s := by
  have h1 : '<' ∉ lit "&lt;" := by decide
  have h2 : '<' ∉ lit "&gt;" := by decide
  have h3 : '<' ∉ lit "&quot;" := by decide
  have h4 : '<' ∉ lit "&#39;" := by decide
  exact mem_replaceChar (mem_replaceChar (mem_replaceChar
    (not_mem_replaceChar_self h1 _) h2) h3) h4

theorem gt_not_mem_escapeHtml (s : Str) : '>' ∉ escapeHtml s := by
  have h1 : '>' ∉ lit "&gt;" := by decide
  have h2 : '>' ∉ lit "&quot;" := by decide
  have h3 : '>' ∉ lit "&#39;" := by decide
  exact mem_replaceChar (mem_replaceChar (not_mem_replaceChar_self h1 _) h2) h3

theorem quot_not_mem_escapeHtml (s : Str) : quotChar ∉ escapeHtml s := by
  have h1 : quotChar ∉ lit "&quot;" := by decide
  have h2 : quotChar ∉ lit "&#39;" := by decide
  exact mem_replaceChar (not_mem_replaceChar_self h1 _) h2

theorem apos_not_mem_escapeHtml (s : Str) : aposChar ∉ escapeHtml s := by
  have h1 : aposChar ∉ lit "&#39;" := by decide
  exact not_mem_replaceChar_self h1 _

theorem splitNl_ne_nil (s : Str) : splitNl s ≠ [] := by
  cases s with
  | nil => simp [splitNl]
  | cons c cs =>
    rw [splitNl]
    cases h : splitNl cs with
    | nil => simp
    | cons a t => by_cases hc : c = '\n' <;> simp [hc]

theorem jsTrim_nil : jsTrim [] = [] := rfl

theorem jsTrim_cons_ws {c : Char} (hc : isWsChar c = true) (s : Str) :
    jsTrim (c :: s) = jsTrim s := by
  simp [jsTrim, trimLeft, List.dropWhile_cons, hc]

theorem trimLeft_cons_not_ws {c : Char} (hc : isWsChar c = false) (s : Str) :
    trimLeft (c :: s) = c :: s := by
  simp [trimLeft, List.dropWhile_cons, hc]

theorem trimRight_append_ws {c : Char} (hc : isWsChar c = true) (s : Str) :
    trimRight (s ++ [c]) = trimRight s := by
  simp [trimRight, List.reverse_append, List.dropWhile_cons, hc]

theorem trimRight_append_not_ws {c : Char} (hc : isWsChar c = false) (s : Str) :
    trimRight (s ++ [c]) = s ++ [c] := by
  simp [trimRight, List.reverse_append, List.dropWhile_cons, hc]

theorem jsTrim_append_ws {c : Char} (hc : isWsChar c = true) (s : Str) :
    jsTrim (s ++ [c]) = jsTrim s := by
  induction s with
  | nil =>
    simp [jsTrim, trimLeft, List.dropWhile_cons, hc, trimRight]
  | cons d ds ih =>
    by_cases hd : isWsChar d
    · rw [List.cons_append, jsTrim_cons_ws hd, ih, jsTrim_cons_ws hd]
    · have hd' : isWsChar d = false := by simpa using hd
      rw [List.cons_append, jsTrim, trimLeft_cons_not_ws hd', jsTrim,
        trimLeft_cons_not_ws hd', ← List.cons_append,
        trimRight_append_ws hc]

/-- Appending a character to the last chunk of a chunk list. -/
def appendLast (c : Char) : List Str → List Str
  | [] => [[c]]
  | [h] => [h ++ [c]]
  | h :: h2 :: t => h :: appendLast c (h2 :: t)

theorem appendLast_ne_nil (c : Char) (xs : List Str) : appendLast c xs ≠ [] := by
  cases xs with
  | nil => simp [appendLast]
  | cons h t => cases t <;> simp [appendLast]

theorem splitNl_append_nl (xs : Str) : splitNl (xs ++ ['\n']) = splitNl xs ++ [[]] := by
  induction xs with
  | nil => rfl
  | cons c cs ih =>
    rw [List.cons_append, splitNl, ih]
    cases h : splitNl cs with
    | nil => exact absurd h (splitNl_ne_nil cs)
    | cons a t =>
      rw [splitNl, h]
      by_cases hc : c = '\n' <;> simp [hc]

theorem splitNl_append_ch {c : Char} (hc : c ≠ '\n') (xs : Str) :
    splitNl (xs ++ [c]) = appendLast c (splitNl xs) := by
  induction xs with
  | nil => simp [splitNl, appendLast, hc]
  | cons d ds ih =>
    rw [List.cons_append, splitNl, ih]
    cases h : splitNl ds with
    | nil => exact absurd h (splitNl_ne_nil ds)
    | cons a t =>
      rw [splitNl, h]
      by_cases hd : d = '\n'
      · cases t <;> simp [hd, appendLast]
      · cases t with
        | nil => simp [hd, appendLast]
        | cons b u => simp [hd, appendLast]

theorem cleanChunks_append (a b : List Str) :
    cleanChunks (a ++ b) = cleanChunks a ++ cleanChunks b := by
  simp [cleanChunks, List.filter_append]

theorem cleanChunks_cons_head_empty {h : Str} (hh : jsTrim h = []) (t : List Str) :
    cleanChunks (h :: t) = cleanChunks t := by
  simp [cleanChunks, hh]

theorem cleanChunks_cons_eq_trim {h h' : Str} (hh : jsTrim h = jsTrim h') (t : List Str) :
    cleanChunks (h :: t) = cleanChunks (h' :: t) := by
  simp [cleanChunks, hh]

theorem cleanChunks_appendLast_ws {c : Char} (hc : isWsChar c = true) (xs : List Str) :
    cleanChunks (appendLast c xs) = cleanChunks xs := by
  induction xs with
  | nil =>
    have h1 : jsTrim [c] = [] := by
      have := jsTrim_append_ws hc ([] : Str)
      simpa using this
    simp [appendLast, cleanChunks, h1]
  | cons h t ih =>
    cases t with
    | nil =>
      have h1 : jsTrim (h ++ [c]) = jsTrim h := jsTrim_append_ws hc h
      simp [appendLast, cleanChunks, h1]
    | cons b u =>
      rw [appendLast]
      rw [show cleanChunks (h :: appendLast c (b :: u)) =
        cleanChunks [h] ++ cleanChunks (appendLast c (b :: u)) from cleanChunks_append [h] _]
      rw [ih]
      exact (cleanChunks_append [h] (b :: u)).symm

theorem splitNl_cons_of_eq {c : Char} {cs : Str} {a : Str} {t : List Str}
    (h : splitNl cs = a :: t) :
    splitNl (c :: cs) = if c = '\n' then [] :: a :: t else (c :: a) :: t := by
  rw [splitNl, h]

theorem cleanLines_cons_ws {c : Char} (hc : isWsChar c = true) (cs : Str) :
    cleanLines (c :: cs) = cleanLines cs := by
  cases h : splitNl cs with
  | nil => exact absurd h (splitNl_ne_nil cs)
  | cons a t =>
    by_cases hnl : c = '\n'
    · rw [cleanLines, splitNl_cons_of_eq h, if_pos hnl,
        cleanChunks_cons_head_empty jsTrim_nil, cleanLines, h]
    · rw [cleanLines, splitNl_cons_of_eq h, if_neg hnl,
        cleanChunks_cons_eq_trim (jsTrim_cons_ws hc a) t, cleanLines, h]

theorem cleanLines_append_ws {c : Char} (hc : isWsChar c = true) (xs : Str) :
    cleanLines (xs ++ [c]) = cleanLines xs := by
  by_cases hnl : c = '\n'
  · subst hnl
    rw [cleanLines, splitNl_append_nl, cleanChunks_append]
    simp [cleanChunks, cleanLines, jsTrim_nil]
  · rw [cleanLines, splitNl_append_ch hnl, cleanChunks_appendLast_ws hc]
    rfl

theorem cleanLines_trimLeft (s : Str) : cleanLines (trimLeft s) = cleanLines s := by
  induction s with
  | nil => rfl
  | cons c cs ih =>
    by_cases hc : isWsChar c
    · have hl : trimLeft (c :: cs) = trimLeft cs := by
        simp [trimLeft, List.dropWhile_cons, hc]
      rw [hl, ih, cleanLines_cons_ws hc]
    · have hc' : isWsChar c = false := by simpa using hc
      rw [trimLeft_cons_not_ws hc']

theorem cleanLines_trimRight (s : Str) : cleanLines (trimRight s) = cleanLines s := by
  induction s using List.reverseRecOn with
  | nil => rfl
  | append_singleton xs c ih =>
    by_cases hc : isWsChar c
    · rw [trimRight_append_ws hc, ih, cleanLines_append_ws hc]
    · have hc' : isWsChar c = false := by simpa using hc
      rw [trimRight_append_not_ws hc']

theorem cleanLines_jsTrim (s : Str) : cleanLines (jsTrim s) = cleanLines s := by
  rw [jsTrim, cleanLines_trimRight, cleanLines_trimLeft]

/-- Source-side transform applied by `transformLegacyFormat` to a string-valued
array field (`summaryReportsController.js`, lines 185-196): trim the whole
string, return `[]` when it is empty, otherwise split on newlines, trim each
item and keep the non-empty ones. -/
def legacyToArray (s : Str) : List Str :=
  let value := jsTrim s
  if value.isEmpty then []
  else ((splitNl value).map jsTrim).filter (fun item => item.length > 0)

/-- A reference entry produced from a legacy `sources` string. -/
structure SourceEntry where
  type : Str
  ref : Str
deriving DecidableEq

/-- Source-side transform applied by `transformLegacyFormat` to a string-valued
`sources` field (`summaryReportsController.js`, lines 200-214). -/
def legacySourcesToArray (s : Str) : List SourceEntry :=
  let sourcesText := jsTrim s
  if sourcesText.isEmpty then []
  else
    ((splitNl sourcesText).map
      (fun line => SourceEntry.mk (lit "reference") (jsTrim line))).filter
      (fun src => !src.ref.isEmpty)

theorem map_filter_exchange {α β : Type} (f : α → β) (p : β → Bool) (l : List α) :
    (l.map f).filter p = (l.filter (fun a => p (f a))).map f := by
  induction l with
  | nil => rfl
  | cons a t ih => by_cases h : p (f a) <;> simp [h, ih]

theorem filter_length_pos (xs : List Str) :
    xs.filter (fun item => item.length > 0) = xs.filter (fun l => !l.isEmpty) := by
  apply List.filter_congr
  intro l _
  cases l <;> simp

theorem legacyToArray_eq_cleanLines (s : Str) : legacyToArray s = cleanLines s := by
  by_cases h : (jsTrim s).isEmpty
  · have h' : jsTrim s = [] := by simpa [List.isEmpty_iff] using h
    rw [legacyToArray]
    rw [← cleanLines_jsTrim s, h']
    simp [h', cleanLines, splitNl, cleanChunks, jsTrim_nil]
  · have h' : ((jsTrim s).isEmpty : Bool) = false := by simpa using h
    rw [legacyToArray]
    simp only [h', Bool.false_eq_true, if_false]
    rw [filter_length_pos, ← cleanLines_jsTrim s]
    rfl

theorem legacySourcesToArray_eq (s : Str) :
    legacySourcesToArray s =
      (cleanLines s).map (fun line => SourceEntry.mk (lit "reference") line) := by
  by_cases h : (jsTrim s).isEmpty
  · have h' : jsTrim s = [] := by simpa [List.isEmpty_iff] using h
    rw [legacySourcesToArray, ← cleanLines_jsTrim s, h']
    simp [cleanLines, splitNl, cleanChunks, jsTrim_nil]
  · have h' : ((jsTrim s).isEmpty : Bool) = false := by simpa using h
    rw [legacySourcesToArray]
    simp only [h', Bool.false_eq_true, if_false]
    rw [← cleanLines_jsTrim s, cleanLines, cleanChunks]
    rw [map_filter_exchange jsTrim (fun l => !l.isEmpty) (splitNl (jsTrim s))]
    rw [map_filter_exchange (fun line => SourceEntry.mk (lit "reference") (jsTrim line))
      (fun src => !src.ref.isEmpty) (splitNl (jsTrim s))]
    simp [List.map_map, Function.comp]

theorem hasPrefixL_iff (n h : Str) : hasPrefixL n h = true ↔ ∃ r, h = n ++ r := by
  induction n generalizing h with
  | nil => simp [hasPrefixL]
  | cons a t ih =>
    cases h with
    | nil =>
      simp only [hasPrefixL]
      constructor
      · intro hf
        exact absurd hf (by simp)
      · rintro ⟨r, hr⟩
        exact absurd hr (by simp)
    | cons b u =>
      rw [hasPrefixL]
      simp only [Bool.and_eq_true, decide_eq_true_eq, ih]
      constructor
      · rintro ⟨hab, r, hr⟩
        exact ⟨r, by simp [hab, hr]⟩
      · rintro ⟨r, hr⟩
        rw [List.cons_append] at hr
        obtain ⟨h1, h2⟩ := List.cons_eq_cons.1 hr
        exact ⟨h1.symm, r, h2⟩

theorem strIncludes_iff (needle h : Str) :
    strIncludes needle h = true ↔ ∃ l r, h = l ++ needle ++ r := by
  induction h with
  | nil =>
    simp only [strIncludes, List.isEmpty_iff]
    constructor
    · intro hn
      exact ⟨[], [], by simp [hn]⟩
    · rintro ⟨l, r, hr⟩
      have := hr.symm
      rcases List.append_eq_nil.1 (List.append_eq_nil.1 this |>.1) with ⟨-, h2⟩
      exact h2
  | cons c cs ih =>
    rw [strIncludes]
    simp only [Bool.or_eq_true, hasPrefixL_iff, ih]
    constructor
    · rintro (⟨r, hr⟩ | ⟨l, r, hr⟩)
      · exact ⟨[], r, by simp [hr]⟩
      · exact ⟨c :: l, r, by simp [hr]⟩
    · rintro ⟨l, r, hr⟩
      cases l with
      | nil =>
        left
        exact ⟨r, by simpa using hr⟩
      | cons d ds =>
        right
        rw [List.cons_append, List.cons_append] at hr
        obtain ⟨-, h2⟩ := List.cons_eq_cons.1 hr
        exact ⟨ds, r, by simpa using h2⟩

/-- The `identity` object of the new summary-report format. -/
structure IdentityObj where
  name : Str
  email : Str
deriving DecidableEq

/-- The possible shapes of the `identity` field of an incoming payload. -/
inductive IdentityField
  | absent
  | strVal (s : Str)
  | objVal (i : IdentityObj)
deriving DecidableEq

/-- JavaScript `data.identity && typeof data.identity === 'object'`. -/
def IdentityField.isObjVal : IdentityField → Bool
  | .objVal _ => true
  | _ => false

/-- The possible shapes of one of the ten legacy array fields. -/
inductive ArrField
  | absent
  | strVal (s : Str)
  | arrVal (xs : List Str)
deriving DecidableEq

/-- The possible shapes of the legacy `sources` field. -/
inductive SourcesField
  | absent
  | strVal (s : Str)
  | arrVal (xs : List SourceEntry)
deriving DecidableEq

/-- The `context` object of the new summary-report format. -/
structure ReportContext where
  source : Option Str
  sourceId : Option Str
  chatId : Option Str
  sessionId : Option Str
  chatflowId : Option Str
deriving DecidableEq

/-- A summary-report request body as seen by `transformLegacyFormat`. -/
structure LegacyPayload where
  studentId : Option Str
  title : Option Str
  identity : IdentityField
  name : Option Str
  email : Option Str
  source : Option Str
  sourceId : Option Str
  chatId : Option Str
  sessionId : Option Str
  chatflowId : Option Str
  date : Option Str
  context : Option ReportContext
  participants : ArrField
  topics : ArrField
  scopeCovered : ArrField
  keyLearnings : ArrField
  misconceptionsClarified : ArrField
  studentStrengths : ArrField
  gapsNextPriorities : ArrField
  suggestedNextSteps : ArrField
  questions : ArrField
  compactRecap : ArrField
  sources : SourcesField
deriving DecidableEq

/-- Per-field step of the `arrayFields.forEach` loop of `transformLegacyFormat`:
a truthy string field is replaced by its newline-split, trimmed, filtered
array; everything else is left alone. -/
def transformArrayField : ArrField → ArrField
  | .strVal s => if !s.isEmpty then .arrVal (legacyToArray s) else .strVal s
  | f => f

/-- Step of `transformLegacyFormat` for the `sources` field. -/
def transformSourcesField : SourcesField → SourcesField
  | .strVal s => if !s.isEmpty then .arrVal (legacySourcesToArray s) else .strVal s
  | f => f

/-- Model of `transformLegacyFormat` (`summaryReportsController.js`,
lines 132-217). -/
def transformLegacyFormat (data : LegacyPayload) : LegacyPayload :=
  if data.identity.isObjVal then data
  else
    let hasIdentity := truthy data.name || truthy data.email
    let ctx := data.context.getD ⟨none, none, none, none, none⟩
    let anyContext := truthy data.source || truthy data.sourceId ||
      truthy data.chatId || truthy data.sessionId || truthy data.chatflowId
    { data with
      identity :=
        if hasIdentity then .objVal ⟨orEmpty data.name, orEmpty data.email⟩
        else data.identity
      name := if hasIdentity then none else data.name
      email := if hasIdentity then none else data.email
      context :=
        if anyContext then
          some ⟨if truthy data.source then data.source else ctx.source,
            if truthy data.sourceId then data.sourceId else ctx.sourceId,
            if truthy data.chatId then data.chatId else ctx.chatId,
            if truthy data.sessionId then data.sessionId else ctx.sessionId,
            if truthy data.chatflowId then data.chatflowId else ctx.chatflowId⟩
        else data.context
      source := none
      sourceId := none
      chatId := none
      sessionId := none
      chatflowId := none
      date := none
      participants := transformArrayField data.participants
      topics := transformArrayField data.topics
      scopeCovered := transformArrayField data.scopeCovered
      keyLearnings := transformArrayField data.keyLearnings
      misconceptionsClarified := transformArrayField data.misconceptionsClarified
      studentStrengths := transformArrayField data.studentStrengths
      gapsNextPriorities := transformArrayField data.gapsNextPriorities
      suggestedNextSteps := transformArrayField data.suggestedNextSteps
      questions := transformArrayField data.questions
      compactRecap := transformArrayField data.compactRecap
      sources := transformSourcesField data.sources }

theorem transformArrayField_strVal {s : Str} (hs : s ≠ []) :
    transformArrayField (.strVal s) = .arrVal (cleanLines s) := by
  have h : (s.isEmpty : Bool) = false := by
    cases s with
    | nil => exact absurd rfl hs
    | cons a t => rfl
  rw [transformArrayField, h]
  simp [legacyToArray_eq_cleanLines]

theorem transformSourcesField_strVal {s : Str} (hs : s ≠ []) :
    transformSourcesField (.strVal s) = .arrVal
      ((cleanLines s).map (fun line => SourceEntry.mk (lit "reference") line)) := by
  have h : (s.isEmpty : Bool) = false := by
    cases s with
    | nil => exact absurd rfl hs
    | cons a t => rfl
  rw [transformSourcesField, h]
  simp [legacySourcesToArray_eq]

theorem transformArrayField_idem (f : ArrField) :
    transformArrayField (transformArrayField f) = transformArrayField f := by
  cases f with
  | strVal s =>
    by_cases h : s.isEmpty <;> simp [transformArrayField, h]
  | absent => rfl
  | arrVal xs => rfl

theorem transformSourcesField_idem (f : SourcesField) :
    transformSourcesField (transformSourcesField f) = transformSourcesField f := by
  cases f with
  | strVal s =>
    by_cases h : s.isEmpty <;> simp [transformSourcesField, h]
  | absent => rfl
  | arrVal xs => rfl

theorem transformLegacyFormat_of_objVal {d : LegacyPayload}
    (h : d.identity.isObjVal = true) : transformLegacyFormat d = d := by
  rw [transformLegacyFormat, if_pos h]

theorem transformLegacyFormat_fields {d : LegacyPayload}
    (hobj : d.identity.isObjVal = false) :
    (transformLegacyFormat d).participants = transformArrayField d.participants ∧
    (transformLegacyFormat d).topics = transformArrayField d.topics ∧
    (transformLegacyFormat d).scopeCovered = transformArrayField d.scopeCovered ∧
    (transformLegacyFormat d).keyLearnings = transformArrayField d.keyLearnings ∧
    (transformLegacyFormat d).misconceptionsClarified =
      transformArrayField d.misconceptionsClarified ∧
    (transformLegacyFormat d).studentStrengths =
      transformArrayField d.studentStrengths ∧
    (transformLegacyFormat d).gapsNextPriorities =
      transformArrayField d.gapsNextPriorities ∧
    (transformLegacyFormat d).suggestedNextSteps =
      transformArrayField d.suggestedNextSteps ∧
    (transformLegacyFormat d).questions = transformArrayField d.questions ∧
    (transformLegacyFormat d).compactRecap = transformArrayField d.compactRecap ∧
    (transformLegacyFormat d).sources = transformSourcesField d.sources := by
  rw [transformLegacyFormat, if_neg (by simp [hobj])]
  exact ⟨rfl, rfl, rfl, rfl, rfl, rfl, rfl, rfl, rfl, rfl, rfl⟩

theorem transformLegacyFormat_no_identity {d : LegacyPayload}
    (hobj : d.identity.isObjVal = false)
    (hid : (truthy d.name || truthy d.email) = false) :
    transformLegacyFormat d =
      { d with
        context :=
          if truthy d.source || truthy d.sourceId || truthy d.chatId ||
              truthy d.sessionId || truthy d.chatflowId then
            some ⟨if truthy d.source then d.source
                else (d.context.getD ⟨none, none, none, none, none⟩).source,
              if truthy d.sourceId then d.sourceId
                else (d.context.getD ⟨none, none, none, none, none⟩).sourceId,
              if truthy d.chatId then d.chatId
                else (d.context.getD ⟨none, none, none, none, none⟩).chatId,
              if truthy d.sessionId then d.sessionId
                else (d.context.getD ⟨none, none, none, none, none⟩).sessionId,
              if truthy d.chatflowId then d.chatflowId
                else (d.context.getD ⟨none, none, none, none, none⟩).chatflowId⟩
          else d.context
        source := none
        sourceId := none
        chatId := none
        sessionId := none
        chatflowId := none
        date := none
        participants := transformArrayField d.participants
        topics := transformArrayField d.topics
        scopeCovered := transformArrayField d.scopeCovered
        keyLearnings := transformArrayField d.keyLearnings
        misconceptionsClarified := transformArrayField d.misconceptionsClarified
        studentStrengths := transformArrayField d.studentStrengths
        gapsNextPriorities := transformArrayField d.gapsNextPriorities
        suggestedNextSteps := transformArrayField d.suggestedNextSteps
        questions := transformArrayField d.questions
        compactRecap := transformArrayField d.compactRecap
        sources := transformSourcesField d.sources } := by
  rw [transformLegacyFormat, if_neg (by simp [hobj])]
  simp [hid]

theorem transformLegacyFormat_idem (d : LegacyPayload) :
    transformLegacyFormat (transformLegacyFormat d) = transformLegacyFormat d := by
  by_cases hobj : d.identity.isObjVal = true
  · rw [transformLegacyFormat_of_objVal hobj]
    exact transformLegacyFormat_of_objVal hobj
  · have hobj' : d.identity.isObjVal = false := by simpa using hobj
    by_cases hid : (truthy d.name || truthy d.email) = true
    · have hfo : (transformLegacyFormat d).identity.isObjVal = true := by
        rw [transformLegacyFormat, if_neg (by simp [hobj'])]
        simp [hid, IdentityField.isObjVal]
      rw [transformLegacyFormat_of_objVal hfo]
    · have hid' : (truthy d.name || truthy d.email) = false := by simpa using hid
      rw [transformLegacyFormat_no_identity hobj' hid']
      rw [transformLegacyFormat_no_identity (by simpa using hobj') (by simpa using hid')]
      simp [transformArrayField_idem, transformSourcesField_idem, truthy]

/-- C3: for every legacy summary-report payload whose `identity` field is not
an object, `transformLegacyFormat` converts each of the ten listed fields that
is a non-empty string into the array of its newline-separated lines, each line
trimmed and empty lines removed (so a whitespace-only string becomes the empty
array), and converts a non-empty `sources` string into the array of
`type: 'reference'` entries built from its trimmed non-empty lines. -/
theorem claim_C3_transformLegacyFormat_strings
    (d : LegacyPayload) (hobj : d.identity.isObjVal = false) :
    (∀ s, s ≠ [] → d.participants = .strVal s →
      (transformLegacyFormat d).participants = .arrVal (cleanLines s)) ∧
    (∀ s, s ≠ [] → d.topics = .strVal s →
      (transformLegacyFormat d).topics = .arrVal (cleanLines s)) ∧
    (∀ s, s ≠ [] → d.scopeCovered = .strVal s →
      (transformLegacyFormat d).scopeCovered = .arrVal (cleanLines s)) ∧
    (∀ s, s ≠ [] → d.keyLearnings = .strVal s →
      (transformLegacyFormat d).keyLearnings = .arrVal (cleanLines s)) ∧
    (∀ s, s ≠ [] → d.misconceptionsClarified = .strVal s →
      (transformLegacyFormat d).misconceptionsClarified = .arrVal (cleanLines s)) ∧
    (∀ s, s ≠ [] → d.studentStrengths = .strVal s →
      (transformLegacyFormat d).studentStrengths = .arrVal (cleanLines s)) ∧
    (∀ s, s ≠ [] → d.gapsNextPriorities = .strVal s →
      (transformLegacyFormat d).gapsNextPriorities = .arrVal (cleanLines s)) ∧
    (∀ s, s ≠ [] → d.suggestedNextSteps = .strVal s →
      (transformLegacyFormat d).suggestedNextSteps = .arrVal (cleanLines s)) ∧
    (∀ s, s ≠ [] → d.questions = .strVal s →
      (transformLegacyFormat d).questions = .arrVal (cleanLines s)) ∧
    (∀ s, s ≠ [] → d.compactRecap = .strVal s →
      (transformLegacyFormat d).compactRecap = .arrVal (cleanLines s)) ∧
    (∀ s, s ≠ [] → d.sources = .strVal s →
      (transformLegacyFormat d).sources =
        .arrVal ((cleanLines s).map
          (fun line => SourceEntry.mk (lit "reference") line))) := by
  obtain ⟨h1, h2, h3, h4, h5, h6, h7, h8, h9, h10, h11⟩ :=
    transformLegacyFormat_fields hobj
  refine ⟨?_, ?_, ?_, ?_, ?_, ?_, ?_, ?_, ?_, ?_, ?_⟩
  · intro s hs hf
    rw [h1, hf, transformArrayField_strVal hs]
  · intro s hs hf
    rw [h2, hf, transformArrayField_strVal hs]
  · intro s hs hf
    rw [h3, hf, transformArrayField_strVal hs]
  · intro s hs hf
    rw [h4, hf, transformArrayField_strVal hs]
  · intro s hs hf
    rw [h5, hf, transformArrayField_strVal hs]
  · intro s hs hf
    rw [h6, hf, transformArrayField_strVal hs]
  · intro s hs hf
    rw [h7, hf, transformArrayField_strVal hs]
  · intro s hs hf
    rw [h8, hf, transformArrayField_strVal hs]
  · intro s hs hf
    rw [h9, hf, transformArrayField_strVal hs]
  · intro s hs hf
    rw [h10, hf, transformArrayField_strVal hs]
  · intro s hs hf
    rw [h11, hf, transformSourcesField_strVal hs]

/-- A concrete legacy payload with string-valued fields, used as witness input. -/
def legacyStrSample : LegacyPayload :=
  ⟨none, some (lit "Session 1"), .absent, none, none, none, none, none, none,
    none, none, none, .strVal (lit "Alice\n Bob \n\n"), .absent, .absent,
    .absent, .absent, .absent, .absent, .absent, .absent, .absent,
    .strVal (lit " ref one \nref two")⟩

/-- Witness for C3 at a concrete payload. -/
theorem claim_C3_witness :
    (transformLegacyFormat legacyStrSample).participants =
      ArrField.arrVal (cleanLines (lit "Alice\n Bob \n\n")) ∧
    (transformLegacyFormat legacyStrSample).sources =
      SourcesField.arrVal ((cleanLines (lit " ref one \nref two")).map
        (fun line => SourceEntry.mk (lit "reference") line)) :=
  ⟨(claim_C3_transformLegacyFormat_strings legacyStrSample (by decide)).1
      (lit "Alice\n Bob \n\n") (by decide) rfl,
    (claim_C3_transformLegacyFormat_strings legacyStrSample
        (by decide)).2.2.2.2.2.2.2.2.2.2
      (lit " ref one \nref two") (by decide) rfl⟩

/-- C8: `transformLegacyFormat` returns its input unchanged whenever the
input's `identity` field is already an object, and consequently for every
payload containing a `name` or `email` field, applying it twice yields the
same result as applying it once. -/
theorem claim_C8_transformLegacyFormat_idempotent :
    (∀ d : LegacyPayload, d.identity.isObjVal = true →
      transformLegacyFormat d = d) ∧
    (∀ d : LegacyPayload, (d.name ≠ none ∨ d.email ≠ none) →
      transformLegacyFormat (transformLegacyFormat d) = transformLegacyFormat d) :=
  ⟨fun _ h => transformLegacyFormat_of_objVal h,
    fun d _ => transformLegacyFormat_idem d⟩

/-- A concrete payload whose identity is already an object. -/
def legacyObjSample : LegacyPayload :=
  ⟨some (lit "abc123"), some (lit "Session 2"),
    .objVal ⟨lit "Ada", lit "ada@example.com"⟩, none, none, none, none, none,
    none, none, none, none, .arrVal [lit "Ada"], .absent, .absent, .absent,
    .absent, .absent, .absent, .absent, .absent, .absent, .absent⟩

/-- A concrete legacy payload carrying a top-level `name` field. -/
def legacyNameSample : LegacyPayload :=
  ⟨none, some (lit "Session 3"), .absent, some (lit "Ada"), none,
    some (lit "flowise"), none, none, none, none, some (lit "2024-01-01"),
    none, .strVal (lit "Ada\nTutor"), .absent, .absent, .absent, .absent,
    .absent, .absent, .absent, .absent, .absent, .absent⟩

/-- Witness for C8 at concrete payloads. -/
theorem claim_C8_witness :
    transformLegacyFormat legacyObjSample = legacyObjSample ∧
    transformLegacyFormat (transformLegacyFormat legacyNameSample) =
      transformLegacyFormat legacyNameSample :=
  ⟨claim_C8_transformLegacyFormat_idempotent.1 legacyObjSample (by decide),
    claim_C8_transformLegacyFormat_idempotent.2 legacyNameSample
      (Or.inl (by decide))⟩

/-- A parsed enrolment (output of `enrolmentSchema`, with `books` and
`examDates` already defaulted to `[]`). -/
structure Enrolment where
  subject : Str
  examBody : Str
  level : Str
  books : List Str
  examDates : List Str
deriving DecidableEq

/-- A parsed guardian (output of `guardianSchema`). -/
structure Guardian where
  name : Str
  email : Str
deriving DecidableEq

/-- A student payload accepted by the manual (or Flowise-wrapped) schema of
`studentsController.ts`. -/
structure ManualStudent where
  name : Str
  nickname : Str
  email : Str
  enrolments : List Enrolment
  age : Option Int
  guardian : Guardian
  preferredColourForDyslexia : Str
  chatId : Option Str
  sessionId : Option Str
  chatflowId : Option Str
deriving DecidableEq

/-- Model of `normalizeStudentPayload` (`studentsController.ts`,
lines 565-591). -/
def normalizeStudentPayload (input : ManualStudent) : ManualStudent :=
  let trimmedNickname := jsTrim input.nickname
  let normalizedGuardian : Guardian :=
    ⟨jsTrim input.guardian.name, jsToLower (jsTrim input.guardian.email)⟩
  let enrolments := input.enrolments.map (fun enrolment =>
    { enrolment with
      subject := jsTrim enrolment.subject
      books := (enrolment.books.map jsTrim).filter (fun b => !b.isEmpty)
      examDates := (enrolment.examDates.map jsTrim).filter (fun x => !x.isEmpty) })
  { input with
    name := jsTrim input.name
    nickname := trimmedNickname
    email := jsToLower (jsTrim input.email)
    guardian := normalizedGuardian
    preferredColourForDyslexia := jsTrim input.preferredColourForDyslexia
    chatId := input.chatId.map jsTrim
    sessionId := input.sessionId.map jsTrim
    chatflowId := input.chatflowId.map jsTrim
    enrolments := enrolments }

/-- C2: for every student payload accepted by the manual or Flowise schema,
`normalizeStudentPayload` trims `name`, `nickname`, `guardian.name`,
`preferredColourForDyslexia`, `chatId`, `sessionId`, `chatflowId` and every
enrolment's `subject`; trims and lowercases the student and guardian e-mails;
trims every book and exam-date entry and drops the empty ones; and leaves
every other field (`age`, and each enrolment's `examBody` and `level`)
unchanged. -/
theorem claim_C2_normalizeStudentPayload (s : ManualStudent) :
    (normalizeStudentPayload s).name = jsTrim s.name ∧
    (normalizeStudentPayload s).nickname = jsTrim s.nickname ∧
    (normalizeStudentPayload s).email = jsToLower (jsTrim s.email) ∧
    (normalizeStudentPayload s).guardian =
      ⟨jsTrim s.guardian.name, jsToLower (jsTrim s.guardian.email)⟩ ∧
    (normalizeStudentPayload s).preferredColourForDyslexia =
      jsTrim s.preferredColourForDyslexia ∧
    (normalizeStudentPayload s).chatId = s.chatId.map jsTrim ∧
    (normalizeStudentPayload s).sessionId = s.sessionId.map jsTrim ∧
    (normalizeStudentPayload s).chatflowId = s.chatflowId.map jsTrim ∧
    (normalizeStudentPayload s).age = s.age ∧
    (normalizeStudentPayload s).enrolments = s.enrolments.map (fun e =>
      ⟨jsTrim e.subject, e.examBody, e.level,
        (e.books.map jsTrim).filter (fun b => !b.isEmpty),
        (e.examDates.map jsTrim).filter (fun x => !x.isEmpty)⟩) :=
  ⟨rfl, rfl, rfl, rfl, rfl, rfl, rfl, rfl, rfl, rfl⟩

/-- A raw enrolment as submitted (fields possibly absent). -/
structure RawEnrolment where
  subject : Option Str
  examBody : Option Str
  level : Option Str
  books : Option (List Str)
  examDates : Option (List Str)
deriving DecidableEq

/-- The possible shapes of the submitted `guardian` field. -/
inductive RawGuardian
  | missing
  | strVal (s : Str)
  | objVal (name : Option Str) (email : Option Str)
deriving DecidableEq

/-- A raw student request body (fields possibly absent). -/
structure RawManualStudent where
  name : Option Str
  nickname : Option Str
  email : Option Str
  enrolments : Option (List RawEnrolment)
  age : Option Int
  guardian : RawGuardian
  preferredColourForDyslexia : Option Str
  chatId : Option Str
  sessionId : Option Str
  chatflowId : Option Str
deriving DecidableEq

/-- A zod validation issue: a path and a message. -/
structure ValIssue where
  path : List Str
  message : Str
deriving DecidableEq

/-- The custom issue added by the `superRefine` of `manualBaseSchema`. -/
def guardianEmailSameIssue : ValIssue :=
  ⟨[lit "guardian", lit "email"],
    lit "Guardian email must be different from student email."⟩

/-- Model of the `z.preprocess` step of `manualSchema`
(`studentsController.ts`, lines 433-455): a string guardian becomes an object
with only a trimmed `email`; an object guardian has its string `name` and
`email` trimmed. -/
def preprocessStudent (raw : RawManualStudent) : RawManualStudent :=
  match raw.guardian with
  | .strVal s => { raw with guardian := .objVal none (some (jsTrim s)) }
  | .objVal n e => { raw with guardian := .objVal (n.map jsTrim) (e.map jsTrim) }
  | .missing => raw

/-- The allowed `examBody` values of `enrolmentSchema`. -/
def examBodies : List Str :=
  [lit "AQA", lit "EdExcel", lit "OCR", lit "WJEC", lit "CIE", lit "Other"]

/-- The allowed `level` values of `enrolmentSchema`. -/
def levels : List Str :=
  [lit "GCSE", lit "AS", lit "A-Level", lit "IGCSE", lit "IB", lit "Other"]

/-- Issues raised by `enrolmentSchema` on one raw enrolment. -/
def enrolmentIssues (e : RawEnrolment) : List ValIssue :=
  (match e.subject with
    | none => [⟨[lit "subject"], lit "Required"⟩]
    | some s =>
      if s.isEmpty then
        [⟨[lit "subject"], lit "String must contain at least 1 character"⟩]
      else []) ++
  (match e.examBody with
    | none => [⟨[lit "examBody"], lit "Required"⟩]
    | some s => if s ∈ examBodies then [] else [⟨[lit "examBody"], lit "Invalid enum value"⟩]) ++
  (match e.level with
    | none => [⟨[lit "level"], lit "Required"⟩]
    | some s => if s ∈ levels then [] else [⟨[lit "level"], lit "Invalid enum value"⟩])

/-- The parsed value produced by `enrolmentSchema` (with defaults applied). -/
def parseEnrolment (e : RawEnrolment) : Enrolment :=
  ⟨e.subject.getD [], e.examBody.getD [], e.level.getD [],
    e.books.getD [], e.examDates.getD []⟩

/-- Issues raised by the trimmed `name` check of `guardianSchema`. -/
def guardianNameIssues : Option Str → List ValIssue
  | none => [⟨[lit "guardian", lit "name"], lit "Required"⟩]
  | some s =>
    if (jsTrim s).isEmpty then
      [⟨[lit "guardian", lit "name"], lit "Guardian name is required"⟩]
    else []

/-- Issues raised by the trimmed `email` checks of `guardianSchema`
(min-length and e-mail validity, the latter supplied by `emailOk`, which
stands for zod's e-mail regex). -/
def guardianEmailIssues (emailOk : Str → Bool) : Option Str → List ValIssue
  | none => [⟨[lit "guardian", lit "email"], lit "Required"⟩]
  | some s =>
    (if (jsTrim s).isEmpty then
      [⟨[lit "guardian", lit "email"], lit "Guardian email is required"⟩]
    else []) ++
    (if emailOk (jsTrim s) then []
    else [⟨[lit "guardian", lit "email"], lit "Guardian email must be valid"⟩])

/-- Issues raised by the `guardianSchema` of `studentsController.ts`
(lines 392-399): the guardian must be an object whose trimmed `name` and
`email` are non-empty, the latter a valid e-mail address. -/
def guardianIssues (emailOk : Str → Bool) : RawGuardian → List ValIssue
  | .objVal n e => guardianNameIssues n ++ guardianEmailIssues emailOk e
  | _ => [⟨[lit "guardian"], lit "Required"⟩]

/-- The guardian value produced by `guardianSchema` (both fields trimmed). -/
def parseGuardian : RawGuardian → Guardian
  | .objVal n e => ⟨jsTrim (n.getD []), jsTrim (e.getD [])⟩
  | _ => ⟨[], []⟩

/-- All issues raised by the object part of `manualBaseSchema`
(`studentsController.ts`, lines 407-419). -/
def collectStudentIssues (emailOk : Str → Bool) (r : RawManualStudent) :
    List ValIssue :=
  (match r.name with
    | none => [⟨[lit "name"], lit "Required"⟩]
    | some s =>
      if s.isEmpty then
        [⟨[lit "name"], lit "String must contain at least 1 character"⟩]
      else []) ++
  (match r.email with
    | none => [⟨[lit "email"], lit "Required"⟩]
    | some s => if emailOk s then [] else [⟨[lit "email"], lit "Invalid email"⟩]) ++
  (match r.enrolments with
    | none => [⟨[lit "enrolments"], lit "Required"⟩]
    | some es =>
      if es.isEmpty then
        [⟨[lit "enrolments"], lit "At least one subject is required"⟩]
      else concatAll (es.map enrolmentIssues)) ++
  (match r.age with
    | none => []
    | some a =>
      if a < 4 ∨ 25 < a then [⟨[lit "age"], lit "Out of range"⟩] else []) ++
  guardianIssues emailOk r.guardian

/-- The parsed student produced by the object part of `manualBaseSchema`,
with the schema defaults applied. -/
def buildParsedStudent (r : RawManualStudent) : ManualStudent :=
  ⟨r.name.getD [], r.nickname.getD [], r.email.getD [],
    (r.enrolments.getD []).map parseEnrolment, r.age,
    parseGuardian r.guardian, r.preferredColourForDyslexia.getD [],
    r.chatId, r.sessionId, r.chatflowId⟩

/-- Object-level parse of `manualBaseSchema` (before the refinement). -/
def validateManualBase (emailOk : Str → Bool) (r : RawManualStudent) :
    Except (List ValIssue) ManualStudent :=
  if (collectStudentIssues emailOk r).isEmpty then .ok (buildParsedStudent r)
  else .error (collectStudentIssues emailOk r)

/-- Model of the `superRefine` of `manualBaseSchema` (`studentsController.ts`,
lines 420-431): reject when the trimmed lowercased student and guardian
e-mails are both truthy and equal. -/
def superRefineIssues (data : ManualStudent) : List ValIssue :=
  let studentEmail := jsToLower (jsTrim data.email)
  let guardianEmail := jsToLower (jsTrim data.guardian.email)
  if !studentEmail.isEmpty && !guardianEmail.isEmpty &&
      studentEmail == guardianEmail then
    [guardianEmailSameIssue]
  else []

/-- Full parse of `manualSchema`: preprocess, object validation, refinement. -/
def manualParse (emailOk : Str → Bool) (raw : RawManualStudent) :
    Except (List ValIssue) ManualStudent :=
  match validateManualBase emailOk (preprocessStudent raw) with
  | .error issues => .error issues
  | .ok p =>
    match superRefineIssues p with
    | [] => .ok p
    | issues => .error issues

theorem dropWhile_idem (p : Char → Bool) (l : Str) :
    (l.dropWhile p).dropWhile p = l.dropWhile p := by
  induction l with
  | nil => rfl
  | cons c cs ih =>
    by_cases hc : p c
    · simp [List.dropWhile_cons, hc, ih]
    · simp [List.dropWhile_cons, hc]

theorem trimRight_idem (s : Str) : trimRight (trimRight s) = trimRight s := by
  rw [trimRight, trimRight, List.reverse_reverse, dropWhile_idem]

theorem trimLeft_head_not_ws {s : Str} {c : Char} {cs : Str}
    (h : trimLeft s = c :: cs) : isWsChar c = false := by
  induction s with
  | nil => exact absurd h (by simp [trimLeft])
  | cons d ds ih =>
    by_cases hd : isWsChar d
    · rw [show trimLeft (d :: ds) = trimLeft ds from by
        simp [trimLeft, List.dropWhile_cons, hd]] at h
      exact ih h
    · have hd' : isWsChar d = false := by simpa using hd
      rw [trimLeft_cons_not_ws hd'] at h
      obtain ⟨h1, -⟩ := List.cons_eq_cons.1 h
      exact h1 ▸ hd'

theorem trimRight_prefix (s : Str) : ∃ t, s = trimRight s ++ t := by
  obtain ⟨u, hu⟩ := List.dropWhile_suffix (l := s.reverse) isWsChar
  refine ⟨u.reverse, ?_⟩
  have := congrArg List.reverse hu
  rw [List.reverse_append, List.reverse_reverse] at this
  rw [trimRight]
  exact this.symm

theorem trimLeft_trimRight_trimLeft (s : Str) :
    trimLeft (trimRight (trimLeft s)) = trimRight (trimLeft s) := by
  cases h : trimLeft s with
  | nil => rfl
  | cons c cs =>
    have hc : isWsChar c = false := trimLeft_head_not_ws h
    obtain ⟨t, ht⟩ := trimRight_prefix (c :: cs)
    cases htr : trimRight (c :: cs) with
    | nil => rfl
    | cons a u =>
      rw [htr, List.cons_append] at ht
      have hac : a = c := (List.cons_eq_cons.1 ht).1.symm
      exact trimLeft_cons_not_ws (by rw [hac]; exact hc) u

theorem jsTrim_idem (s : Str) : jsTrim (jsTrim s) = jsTrim s := by
  rw [jsTrim, jsTrim, trimLeft_trimRight_trimLeft, trimRight_idem]

theorem validateManualBase_ok {emailOk : Str → Bool} {r : RawManualStudent}
    {p : ManualStudent} (h : validateManualBase emailOk r = .ok p) :
    p = buildParsedStudent r ∧ collectStudentIssues emailOk r = [] := by
  rw [validateManualBase] at h
  by_cases hi : (collectStudentIssues emailOk r).isEmpty
  · rw [if_pos hi] at h
    exact ⟨(Except.ok.injEq _ _ ▸ h).symm, List.isEmpty_iff.mp hi⟩
  · rw [if_neg hi] at h
    exact absurd h (by simp)

theorem guardian_trimmed_email_ne_nil {emailOk : Str → Bool}
    {r : RawManualStudent} {p : ManualStudent}
    (h : validateManualBase emailOk r = .ok p) :
    ∃ s, p.guardian.email = jsTrim s ∧ jsTrim s ≠ [] := by
  obtain ⟨hp, hcol⟩ := validateManualBase_ok h
  have hg : guardianIssues emailOk r.guardian = [] := by
    rw [collectStudentIssues] at hcol
    exact (List.append_eq_nil.mp hcol).2
  cases hG : r.guardian with
  | missing =>
    rw [hG] at hg
    exact absurd hg (by
      rw [show guardianIssues emailOk .missing =
        [⟨[lit "guardian"], lit "Required"⟩] from rfl]
      simp)
  | strVal s =>
    rw [hG] at hg
    exact absurd hg (by
      rw [show guardianIssues emailOk (.strVal s) =
        [⟨[lit "guardian"], lit "Required"⟩] from rfl]
      simp)
  | objVal n e =>
    rw [hG] at hg
    have hg2 : guardianNameIssues n ++ guardianEmailIssues emailOk e = [] := hg
    have hge := (List.append_eq_nil.mp hg2).2
    cases e with
    | none =>
      exact absurd hge (by
        rw [show guardianEmailIssues emailOk none =
          [⟨[lit "guardian", lit "email"], lit "Required"⟩] from rfl]
        simp)
    | some s =>
      refine ⟨s, ?_, ?_⟩
      · rw [hp, buildParsedStudent]
        simp [parseGuardian, hG]
      · have h3 : (if (jsTrim s).isEmpty then
            [ValIssue.mk [lit "guardian", lit "email"]
              (lit "Guardian email is required")]
          else []) ++
            (if emailOk (jsTrim s) then []
            else [ValIssue.mk [lit "guardian", lit "email"]
              (lit "Guardian email must be valid")]) = [] := hge
        have h4 := (List.append_eq_nil.mp h3).1
        by_cases he : (jsTrim s).isEmpty
        · rw [if_pos he] at h4
          exact absurd h4 (by simp)
        · simpa [List.isEmpty_iff] using he

/-- C9: the manual student schema rejects every payload in which the guardian
e-mail equals the student e-mail after trimming and lowercasing both, adding
the validation issue at path `guardian.email`; and a payload whose guardian is
a plain string is first coerced by the schema's preprocess step into an object
whose `email` is that string trimmed, before the check applies. -/
theorem claim_C9_manualSchema_guardian_email :
    (∀ (emailOk : Str → Bool) (raw : RawManualStudent) (p : ManualStudent),
      validateManualBase emailOk (preprocessStudent raw) = .ok p →
      jsToLower (jsTrim p.email) = jsToLower (jsTrim p.guardian.email) →
      manualParse emailOk raw = .error [guardianEmailSameIssue]) ∧
    (∀ (raw : RawManualStudent) (s : Str), raw.guardian = .strVal s →
      (preprocessStudent raw).guardian = .objVal none (some (jsTrim s))) := by
  constructor
  · intro emailOk raw p hok heq
    obtain ⟨s, hges, hsne⟩ := guardian_trimmed_email_ne_nil hok
    have hge : jsToLower (jsTrim p.guardian.email) ≠ [] := by
      rw [hges, jsTrim_idem]
      simpa [jsToLower, List.map_eq_nil_iff] using hsne
    have hse : jsToLower (jsTrim p.email) ≠ [] := heq ▸ hge
    rw [manualParse, hok]
    have hcond : superRefineIssues p = [guardianEmailSameIssue] := by
      rw [superRefineIssues]
      have h1 : (jsToLower (jsTrim p.email)).isEmpty = false := by
        simpa [List.isEmpty_iff] using hse
      have h2 : (jsToLower (jsTrim p.guardian.email)).isEmpty = false := by
        simpa [List.isEmpty_iff] using hge
      simp [h1, h2, heq]
    simp [hcond]
  · intro raw s hG
    rw [preprocessStudent, hG]

/-- A stand-in for zod's e-mail regex used at witness inputs. -/
def emailOkSample : Str → Bool := fun s => s.contains '@'

/-- A concrete raw student body whose guardian e-mail equals the student
e-mail. -/
def rawStudentSample : RawManualStudent :=
  ⟨some (lit "Ada Lovelace"), none, some (lit "kid@example.com"),
    some [⟨some (lit "Maths"), some (lit "AQA"), some (lit "GCSE"), none, none⟩],
    none, .objVal (some (lit "Parent")) (some (lit "kid@example.com")),
    none, none, none, none⟩

/-- A concrete raw student body whose guardian field is a plain string. -/
def rawGuardianStrSample : RawManualStudent :=
  { rawStudentSample with guardian := .strVal (lit " g@x.io ") }

/-- Witness for C9 at concrete inputs. -/
theorem claim_C9_witness :
    manualParse emailOkSample rawStudentSample = .error [guardianEmailSameIssue] ∧
    (preprocessStudent rawGuardianStrSample).guardian =
      .objVal none (some (jsTrim (lit " g@x.io "))) :=
  ⟨claim_C9_manualSchema_guardian_email.1 emailOkSample rawStudentSample
      (buildParsedStudent (preprocessStudent rawStudentSample)) rfl rfl,
    claim_C9_manualSchema_guardian_email.2 rawGuardianStrSample
      (lit " g@x.io ") rfl⟩

/-- Client metadata extracted from the request. -/
structure ClientInfo where
  ip : Str
  userAgent : Str
deriving DecidableEq

/-- The environment configuration fields the handlers consult. An empty
string models an unset variable. -/
structure Env where
  studentAlertTo : Str
  issueAlertTo : Str
  summaryReportAlertTo : Str
  nodeEnv : Str
deriving DecidableEq

/-- A stored student document (the fields the controllers query). -/
structure StoredStudent where
  source : Str
  sourceId : Str
  body : ManualStudent
  client : ClientInfo
deriving DecidableEq

/-- A duplicate-conflict description (`code` and `message`). -/
structure ConflictInfo where
  code : Str
  message : Str
deriving DecidableEq

/-- The student-email conflict returned by the controller. -/
def studentEmailExistsConflict : ConflictInfo :=
  ⟨lit "STUDENT_EMAIL_EXISTS",
    lit "Student email address is already registered."⟩

/-- The guardian-email conflict returned by the controller. -/
def guardianEmailExistsConflict : ConflictInfo :=
  ⟨lit "STUDENT_GUARDIAN_EMAIL_EXISTS",
    lit "Guardian email is already associated with another student."⟩

/-- Model of `hasEmailConflicts` (`studentsController.ts`, lines 593-612):
`Student.exists` on the stored e-mails. -/
def hasEmailConflicts (db : List StoredStudent) (payload : ManualStudent) :
    Option ConflictInfo :=
  if db.any (fun st => st.body.email == payload.email) then
    some studentEmailExistsConflict
  else if !payload.guardian.email.isEmpty &&
      db.any (fun st => st.body.guardian.email == payload.guardian.email) then
    some guardianEmailExistsConflict
  else none

/-- The response sent by a student create handler. -/
inductive StudentResp
  | ok (status : Nat) (docIndex : Nat)
  | conflict (status : Nat) (code : Str) (message : Str)
  | forwarded (errs : List ValIssue)
deriving DecidableEq

/-- The outcome of a student create handler: the resulting database, whether
a notification e-mail was attempted, and the response. -/
structure StudentOutcome where
  db : List StoredStudent
  emailAttempted : Bool
  resp : StudentResp
deriving DecidableEq

/-- Whether `maybeSendStudentEmail` attempts a send: the service-level
`sendStudentSubmissionAlert` skips when `env.studentAlertTo` is unset. -/
def maybeSendStudentEmailAttempted (env : Env) : Bool := !env.studentAlertTo.isEmpty

/-- Model of `createStudent` (`studentsController.ts`, lines 627-655), applied
to the result of `manualSchema.parse`: on a parse error the error is forwarded
to `next`; otherwise the payload is normalized, checked for conflicts (409,
nothing stored), and only then stored (201) and the alert e-mail attempted. -/
def createStudent (env : Env) (db : List StoredStudent) (client : ClientInfo)
    (parsed : Except (List ValIssue) ManualStudent) : StudentOutcome :=
  match parsed with
  | .error e => ⟨db, false, .forwarded e⟩
  | .ok p =>
    let body := normalizeStudentPayload p
    match hasEmailConflicts db body with
    | some c => ⟨db, false, .conflict 409 c.code c.message⟩
    | none =>
      ⟨db ++ [⟨lit "manual", [], body, client⟩],
        maybeSendStudentEmailAttempted env, .ok 201 db.length⟩

/-- Model of `createStudentFromFlowise` (`studentsController.ts`,
lines 657-686): as `createStudent`, but the stored document carries source
`flowise` and the optional webhook id, and the success status is 202. -/
def createStudentFromFlowise (env : Env) (db : List StoredStudent)
    (client : ClientInfo) (id : Option Str)
    (parsed : Except (List ValIssue) ManualStudent) : StudentOutcome :=
  match parsed with
  | .error e => ⟨db, false, .forwarded e⟩
  | .ok p =>
    let body := normalizeStudentPayload p
    match hasEmailConflicts db body with
    | some c => ⟨db, false, .conflict 409 c.code c.message⟩
    | none =>
      ⟨db ++ [⟨lit "flowise", id.getD [], body, client⟩],
        maybeSendStudentEmailAttempted env, .ok 202 db.length⟩

theorem createStudent_ok (env : Env) (db : List StoredStudent)
    (client : ClientInfo) (p : ManualStudent) :
    createStudent env db client (.ok p) =
      match hasEmailConflicts db (normalizeStudentPayload p) with
      | some c => ⟨db, false, .conflict 409 c.code c.message⟩
      | none => ⟨db ++ [⟨lit "manual", [], normalizeStudentPayload p, client⟩],
          maybeSendStudentEmailAttempted env, .ok 201 db.length⟩ := rfl

theorem createStudentFromFlowise_ok (env : Env) (db : List StoredStudent)
    (client : ClientInfo) (id : Option Str) (p : ManualStudent) :
    createStudentFromFlowise env db client id (.ok p) =
      match hasEmailConflicts db (normalizeStudentPayload p) with
      | some c => ⟨db, false, .conflict 409 c.code c.message⟩
      | none => ⟨db ++ [⟨lit "flowise", id.getD [], normalizeStudentPayload p, client⟩],
          maybeSendStudentEmailAttempted env, .ok 202 db.length⟩ := rfl

theorem any_student_email_iff (db : List StoredStudent) (e : Str) :
    db.any (fun st => st.body.email == e) = true ↔
      ∃ st ∈ db, st.body.email = e := by
  simp [List.any_eq_true]

theorem any_guardian_email_iff (db : List StoredStudent) (e : Str) :
    db.any (fun st => st.body.guardian.email == e) = true ↔
      ∃ st ∈ db, st.body.guardian.email = e := by
  simp [List.any_eq_true]

/-- C1: for every create-student request (manual or Flowise) whose body passed
schema validation, if some stored student's e-mail equals the submitted
e-mail after trimming and lowercasing, the handler responds 409 with
`STUDENT_EMAIL_EXISTS` and stores nothing; otherwise, if the normalized
guardian e-mail is non-empty and some stored student has that guardian
e-mail, it responds 409 with `STUDENT_GUARDIAN_EMAIL_EXISTS` and stores
nothing; only when neither conflict exists is a document appended. -/
theorem claim_C1_createStudent_conflicts (env : Env) (db : List StoredStudent)
    (client : ClientInfo) (id : Option Str) (p : ManualStudent) :
    ((∃ st ∈ db, st.body.email = jsToLower (jsTrim p.email)) →
      createStudent env db client (.ok p) =
        ⟨db, false, .conflict 409 (lit "STUDENT_EMAIL_EXISTS")
          studentEmailExistsConflict.message⟩ ∧
      createStudentFromFlowise env db client id (.ok p) =
        ⟨db, false, .conflict 409 (lit "STUDENT_EMAIL_EXISTS")
          studentEmailExistsConflict.message⟩) ∧
    ((¬ ∃ st ∈ db, st.body.email = jsToLower (jsTrim p.email)) →
      jsToLower (jsTrim p.guardian.email) ≠ [] →
      (∃ st ∈ db, st.body.guardian.email = jsToLower (jsTrim p.guardian.email)) →
      createStudent env db client (.ok p) =
        ⟨db, false, .conflict 409 (lit "STUDENT_GUARDIAN_EMAIL_EXISTS")
          guardianEmailExistsConflict.message⟩ ∧
      createStudentFromFlowise env db client id (.ok p) =
        ⟨db, false, .conflict 409 (lit "STUDENT_GUARDIAN_EMAIL_EXISTS")
          guardianEmailExistsConflict.message⟩) ∧
    ((¬ ∃ st ∈ db, st.body.email = jsToLower (jsTrim p.email)) →
      (jsToLower (jsTrim p.guardian.email) = [] ∨
        ¬ ∃ st ∈ db, st.body.guardian.email =
          jsToLower (jsTrim p.guardian.email)) →
      createStudent env db client (.ok p) =
        ⟨db ++ [⟨lit "manual", [], normalizeStudentPayload p, client⟩],
          maybeSendStudentEmailAttempted env, .ok 201 db.length⟩ ∧
      createStudentFromFlowise env db client id (.ok p) =
        ⟨db ++ [⟨lit "flowise", id.getD [], normalizeStudentPayload p, client⟩],
          maybeSendStudentEmailAttempted env, .ok 202 db.length⟩) := by
  have hbe : (normalizeStudentPayload p).email = jsToLower (jsTrim p.email) := rfl
  have hbg : (normalizeStudentPayload p).guardian.email =
    jsToLower (jsTrim p.guardian.email) := rfl
  refine ⟨?_, ?_, ?_⟩
  · intro hex
    have hany : db.any (fun st => st.body.email ==
        (normalizeStudentPayload p).email) = true := by
      rw [hbe, any_student_email_iff]
      exact hex
    have hc : hasEmailConflicts db (normalizeStudentPayload p) =
        some studentEmailExistsConflict := by
      rw [hasEmailConflicts, if_pos hany]
    rw [createStudent_ok, createStudentFromFlowise_ok, hc]
    exact ⟨rfl, rfl⟩
  · intro hnex hg hgex
    have hany : db.any (fun st => st.body.email ==
        (normalizeStudentPayload p).email) = false := by
      rw [← Bool.not_eq_true, hbe, any_student_email_iff]
      exact hnex
    have hgany : (!(normalizeStudentPayload p).guardian.email.isEmpty &&
        db.any (fun st => st.body.guardian.email ==
          (normalizeStudentPayload p).guardian.email)) = true := by
      rw [Bool.and_eq_true]
      constructor
      · rw [hbg]
        simpa [List.isEmpty_iff] using hg
      · rw [hbg, any_guardian_email_iff]
        exact hgex
    have hc : hasEmailConflicts db (normalizeStudentPayload p) =
        some guardianEmailExistsConflict := by
      rw [hasEmailConflicts, if_neg (by rw [hany]; exact Bool.false_ne_true),
        if_pos hgany]
    rw [createStudent_ok, createStudentFromFlowise_ok, hc]
    exact ⟨rfl, rfl⟩
  · intro hnex hnog
    have hany : db.any (fun st => st.body.email ==
        (normalizeStudentPayload p).email) = false := by
      rw [← Bool.not_eq_true, hbe, any_student_email_iff]
      exact hnex
    have hgany : (!(normalizeStudentPayload p).guardian.email.isEmpty &&
        db.any (fun st => st.body.guardian.email ==
          (normalizeStudentPayload p).guardian.email)) = false := by
      rw [← Bool.not_eq_true, Bool.and_eq_true]
      rintro ⟨h1, h2⟩
      rcases hnog with hgnil | hgnex
      · rw [hbg] at h1
        rw [hgnil] at h1
        simp at h1
      · rw [hbg, any_guardian_email_iff] at h2
        exact hgnex h2
    have hc : hasEmailConflicts db (normalizeStudentPayload p) = none := by
      rw [hasEmailConflicts, if_neg (by rw [hany]; exact Bool.false_ne_true),
        if_neg (by rw [hgany]; exact Bool.false_ne_true)]
    rw [createStudent_ok, createStudentFromFlowise_ok, hc]
    exact ⟨rfl, rfl⟩

/-- Concrete environment used by witnesses. -/
def envSample : Env := ⟨lit "alerts@example.com", lit "alerts@example.com",
  lit "alerts@example.com", lit "test"⟩

/-- Concrete client metadata used by witnesses. -/
def clientSample : ClientInfo := ⟨lit "127.0.0.1", lit "curl/8"⟩

/-- A concrete parsed student whose submitted e-mail needs normalizing. -/
def studentSample : ManualStudent :=
  ⟨lit "Ada", [], lit " KID@Example.com ",
    [⟨lit "Maths", lit "AQA", lit "GCSE", [], []⟩], none,
    ⟨lit "Parent", lit "Par@example.com"⟩, [], none, none, none⟩

/-- A stored student holding the normalized e-mails of `studentSample`. -/
def storedSample : StoredStudent :=
  ⟨lit "manual", [], normalizeStudentPayload studentSample, clientSample⟩

/-- Witness for C1: at a database already containing the normalized e-mail the
manual handler answers 409 and stores nothing, and at the empty database it
stores the document. -/
theorem claim_C1_witness :
    createStudent envSample [storedSample] clientSample (.ok studentSample) =
      ⟨[storedSample], false, .conflict 409 (lit "STUDENT_EMAIL_EXISTS")
        studentEmailExistsConflict.message⟩ ∧
    createStudent envSample [] clientSample (.ok studentSample) =
      ⟨[⟨lit "manual", [], normalizeStudentPayload studentSample, clientSample⟩],
        maybeSendStudentEmailAttempted envSample, .ok 201 0⟩ :=
  ⟨(claim_C1_createStudent_conflicts envSample [storedSample] clientSample
      none studentSample).1 (by decide) |>.1,
    (claim_C1_createStudent_conflicts envSample [] clientSample
      none studentSample).2.2 (by decide) (Or.inr (by decide)) |>.1⟩

/-- The data of a Mongo duplicate-key error object (`keyValue`/`keyPattern`
are modelled by their ordered key lists, which is all the controller reads). -/
structure DuplicateKeyErr where
  code : Int
  keyValue : Option (List Str)
  keyPattern : Option (List Str)
deriving DecidableEq

/-- An arbitrary error value reaching the catch block: not an object, an
object without a `code` property, or an object with a numeric `code`. -/
inductive MongoError
  | nonObject
  | objNoCode
  | obj (d : DuplicateKeyErr)
deriving DecidableEq

/-- Model of `isDuplicateKeyError` (`studentsController.ts`, lines 528-535):
the value is an object with a `code` property strictly equal to 11000. -/
def isDuplicateKeyError : MongoError → Bool
  | .obj d => d.code == 11000
  | _ => false

/-- Model of `resolveDuplicateField` (`studentsController.ts`, lines 537-553):
take the first key of `keyValue`, else the first key of `keyPattern`, else
`email`; report the guardian conflict exactly when it contains `guardian`. -/
def resolveDuplicateField (error : DuplicateKeyErr) : ConflictInfo :=
  let keyValue := error.keyValue.getD []
  let keyPattern := error.keyPattern.getD []
  let key := keyValue.head?.getD (keyPattern.head?.getD (lit "email"))
  if strIncludes (lit "guardian") key then guardianEmailExistsConflict
  else studentEmailExistsConflict

/-- Model of `handleDuplicateKeyError` (`studentsController.ts`,
lines 555-563): `none` models returning `false` (no response sent); `some`
carries the 409 status and the conflict body. -/
def handleDuplicateKeyError (error : MongoError) : Option (Nat × ConflictInfo) :=
  if isDuplicateKeyError error then
    match error with
    | .obj d => some (409, resolveDuplicateField d)
    | _ => none
  else none

/-- The first duplicate key as the claim describes it: the first key of
`keyValue`, or, if `keyValue` is empty or absent, the first key of
`keyPattern`, defaulting to `email`. -/
def firstDupKey (d : DuplicateKeyErr) : Str :=
  (d.keyValue.getD []).head?.getD ((d.keyPattern.getD []).head?.getD (lit "email"))

/-- C6: `handleDuplicateKeyError` sends a 409 response iff the error is an
object whose `code` equals 11000, and in that case the response code is
`STUDENT_GUARDIAN_EMAIL_EXISTS` exactly when the first duplicate key contains
the substring `guardian`, and `STUDENT_EMAIL_EXISTS` otherwise. -/
theorem claim_C6_handleDuplicateKeyError (e : MongoError) :
    ((handleDuplicateKeyError e).isSome ↔ ∃ d, e = .obj d ∧ d.code = 11000) ∧
    (∀ d, e = .obj d → d.code = 11000 →
      ((∃ l r, firstDupKey d = l ++ lit "guardian" ++ r) →
        handleDuplicateKeyError e = some (409, guardianEmailExistsConflict)) ∧
      ((¬ ∃ l r, firstDupKey d = l ++ lit "guardian" ++ r) →
        handleDuplicateKeyError e = some (409, studentEmailExistsConflict))) := by
  constructor
  · cases e with
    | nonObject =>
      simp only [handleDuplicateKeyError, isDuplicateKeyError]
      constructor
      · intro h
        exact absurd h (by simp)
      · rintro ⟨d, hd, -⟩
        exact absurd hd (by simp)
    | objNoCode =>
      simp only [handleDuplicateKeyError, isDuplicateKeyError]
      constructor
      · intro h
        exact absurd h (by simp)
      · rintro ⟨d, hd, -⟩
        exact absurd hd (by simp)
    | obj d =>
      by_cases hc : d.code = 11000
      · have : isDuplicateKeyError (.obj d) = true := by
          simp [isDuplicateKeyError, hc]
        simp only [handleDuplicateKeyError, this, if_true]
        exact ⟨fun _ => ⟨d, rfl, hc⟩, fun _ => by simp⟩
      · have : isDuplicateKeyError (.obj d) = false := by
          simp [isDuplicateKeyError, hc]
        simp only [handleDuplicateKeyError, this, Bool.false_eq_true, if_false]
        constructor
        · intro h
          exact absurd h (by simp)
        · rintro ⟨d', hd', hc'⟩
          obtain rfl : d = d' := by
            injection hd'
          exact absurd hc' hc
  · rintro d rfl hc
    have hdup : isDuplicateKeyError (.obj d) = true := by
      simp [isDuplicateKeyError, hc]
    constructor
    · intro hguard
      have hinc : strIncludes (lit "guardian") (firstDupKey d) = true :=
        (strIncludes_iff _ _).mpr (by
          obtain ⟨l, r, hr⟩ := hguard
          exact ⟨l, r, hr⟩)
      rw [handleDuplicateKeyError, if_pos hdup]
      rw [show resolveDuplicateField d =
        (if strIncludes (lit "guardian") (firstDupKey d) then
          guardianEmailExistsConflict else studentEmailExistsConflict) from rfl]
      rw [hinc]
      simp
    · intro hguard
      have hinc : strIncludes (lit "guardian") (firstDupKey d) = false := by
        rw [← Bool.not_eq_true, strIncludes_iff]
        exact hguard
      rw [handleDuplicateKeyError, if_pos hdup]
      rw [show resolveDuplicateField d =
        (if strIncludes (lit "guardian") (firstDupKey d) then
          guardianEmailExistsConflict else studentEmailExistsConflict) from rfl]
      rw [hinc]
      simp

/-- A concrete duplicate-key error on the guardian e-mail index. -/
def dupErrSample : DuplicateKeyErr := ⟨11000, some [lit "guardian.email"], none⟩

/-- Witness for C6 at a concrete duplicate-key error. -/
theorem claim_C6_witness :
    handleDuplicateKeyError (.obj dupErrSample) =
      some (409, guardianEmailExistsConflict) :=
  ((claim_C6_handleDuplicateKeyError (.obj dupErrSample)).2 dupErrSample rfl
    (by decide)).1 ⟨[], lit ".email", by decide⟩

/-- A simplified issue payload (the `SimplifiedIssue` shape of the issues
controller). -/
structure IssuePayload where
  title : Str
  description : Option Str
  date : Option Str
  name : Option Str
  email : Option Str
  chatId : Option Str
  sessionId : Option Str
  chatflowId : Option Str
  nodeId : Option Str
deriving DecidableEq

/-- A raw issue body (fields possibly absent). -/
structure RawIssue where
  title : Option Str
  description : Option Str
  date : Option Str
  name : Option Str
  email : Option Str
  chatId : Option Str
  sessionId : Option Str
  chatflowId : Option Str
  nodeId : Option Str
deriving DecidableEq

/-- Model of the manual issue schema (`title` required and non-empty, all
other fields optional strings). -/
def parseIssueManual (r : RawIssue) : Except (List ValIssue) IssuePayload :=
  match r.title with
  | none => .error [⟨[lit "title"], lit "Required"⟩]
  | some t =>
    if t.isEmpty then
      .error [⟨[lit "title"], lit "String must contain at least 1 character"⟩]
    else
      .ok ⟨t, r.description, r.date, r.name, r.email, r.chatId, r.sessionId,
        r.chatflowId, r.nodeId⟩

/-- A raw Flowise issue envelope. -/
structure RawFlowiseIssue where
  id : Option Str
  payload : Option RawIssue
deriving DecidableEq

/-- Model of `parseFlowiseIssuePayload`: the envelope needs a `payload`
object; `title` defaults to `Issue` and `description` to the empty string. -/
def parseFlowiseIssuePayload (r : RawFlowiseIssue) :
    Except (List ValIssue) IssuePayload :=
  match r.payload with
  | none => .error [⟨[lit "payload"], lit "Required"⟩]
  | some p =>
    .ok ⟨p.title.getD (lit "Issue"), some (p.description.getD []), p.date,
      p.name, p.email, p.chatId, p.sessionId, p.chatflowId, p.nodeId⟩

/-- A stored issue document, as built by `buildIssueDocument`. -/
structure IssueDoc where
  source : Str
  title : Str
  description : Str
  details : Str
  client : ClientInfo
  name : Option Str
  email : Option Str
  chatId : Option Str
  sessionId : Option Str
  chatflowId : Option Str
  nodeId : Option Str
deriving DecidableEq

/-- Model of `buildIssueDocument` (issues controller, lines 162-180). -/
def buildIssueDocument (issue : IssuePayload) (source : Str)
    (client : ClientInfo) : IssueDoc :=
  ⟨source, issue.title, issue.description.getD [], issue.date.getD [], client,
    issue.name, issue.email, issue.chatId, issue.sessionId, issue.chatflowId,
    issue.nodeId⟩

/-- One line of the alert e-mail for a truthy optional field. -/
def optLine (label : Str) : Option Str → List Str
  | some s => if s.isEmpty then [] else [label ++ s]
  | none => []

/-- The lines of the issue alert e-mail (issues controller, lines 121-131);
the `Source:` line is always present. -/
def issueEmailLines (source : Str) (issue : IssuePayload) : List Str :=
  [lit "Source: " ++ source] ++
  optLine (lit "Description: ") issue.description ++
  optLine (lit "Date: ") issue.date ++
  optLine (lit "Name: ") issue.name ++
  optLine (lit "Email: ") issue.email ++
  optLine (lit "Chat ID: ") issue.chatId ++
  optLine (lit "Session ID: ") issue.sessionId ++
  optLine (lit "Chatflow ID: ") issue.chatflowId ++
  optLine (lit "Node ID: ") issue.nodeId

/-- Model of `maybeSendIssueEmail` (issues controller, lines 114-155).
It returns whether a send was attempted and the warning log entries; the send
result is supplied by `sendOk` (the external mail service).  A failed send is
only logged. -/
def maybeSendIssueEmail (env : Env) (source : Str) (issue : IssuePayload)
    (sendOk : Bool) : Bool × List Str :=
  if env.issueAlertTo.isEmpty then (false, [])
  else
    let lines := issueEmailLines source issue
    if lines.isEmpty then (false, [])
    else (true, if sendOk then [] else [lit "Failed to send issue alert email"])

/-- The response sent by an issue handler. -/
inductive IssueResp
  | docResp (status : Nat) (doc : IssueDoc)
  | ack (status : Nat) (received : Bool) (id : Nat)
  | forwarded (errs : List ValIssue)
deriving DecidableEq

/-- The outcome of an issue handler. -/
structure IssueOutcome where
  db : List IssueDoc
  emailAttempted : Bool
  warnLogs : List Str
  resp : IssueResp
deriving DecidableEq

/-- Model of `createIssue` (issues controller, lines 207-217): parse, store,
maybe e-mail, respond 201 with the created document. -/
def createIssue (env : Env) (db : List IssueDoc) (client : ClientInfo)
    (sendOk : Bool) (parsed : Except (List ValIssue) IssuePayload) :
    IssueOutcome :=
  match parsed with
  | .error e => ⟨db, false, [], .forwarded e⟩
  | .ok body =>
    let doc := buildIssueDocument body (lit "manual") client
    let sent := maybeSendIssueEmail env (lit "manual") body sendOk
    ⟨db ++ [doc], sent.1, sent.2, .docResp 201 doc⟩

/-- Model of `createIssueFromFlowise` (issues controller, lines 187-199):
parse, store, maybe e-mail, respond 202 with an acknowledgement carrying the
created document's id (its index in the stored list). -/
def createIssueFromFlowise (env : Env) (db : List IssueDoc)
    (client : ClientInfo) (sendOk : Bool)
    (parsed : Except (List ValIssue) IssuePayload) : IssueOutcome :=
  match parsed with
  | .error e => ⟨db, false, [], .forwarded e⟩
  | .ok body =>
    let doc := buildIssueDocument body (lit "flowise") client
    let sent := maybeSendIssueEmail env (lit "flowise") body sendOk
    ⟨db ++ [doc], sent.1, sent.2, .ack 202 true db.length⟩

/-- A summary-report payload accepted by the manual schema of
`summaryReportsController.ts`. -/
structure ReportPayload where
  title : Str
  date : Str
  participants : Str
  scopeCovered : Str
  keyLearnings : Str
  misconceptionsClarified : Option Str
  studentStrengths : Option Str
  gapsNextPriorities : Option Str
  suggestedNextSteps : Option Str
  questions : Option Str
  sources : Option Str
  compactRecap : Option Str
  name : Option Str
  email : Option Str
  chatId : Option Str
  sessionId : Option Str
  chatflowId : Option Str
deriving DecidableEq

/-- A raw summary-report body (fields possibly absent). -/
structure RawReport where
  title : Option Str
  date : Option Str
  participants : Option Str
  scopeCovered : Option Str
  keyLearnings : Option Str
  misconceptionsClarified : Option Str
  studentStrengths : Option Str
  gapsNextPriorities : Option Str
  suggestedNextSteps : Option Str
  questions : Option Str
  sources : Option Str
  compactRecap : Option Str
  name : Option Str
  email : Option Str
  chatId : Option Str
  sessionId : Option Str
  chatflowId : Option Str
deriving DecidableEq

/-- One required min-1 string field of the manual report schema. -/
def requiredStrIssues (field : String) : Option Str → List ValIssue
  | none => [⟨[lit field], lit "Required"⟩]
  | some s =>
    if s.isEmpty then
      [⟨[lit field], lit "String must contain at least 1 character"⟩]
    else []

/-- Model of the manual summary-report schema of
`summaryReportsController.ts`: `title`, `date`, `participants`,
`scopeCovered` and `keyLearnings` are required non-empty strings, everything
else is optional. -/
def parseReportManual (r : RawReport) : Except (List ValIssue) ReportPayload :=
  let issues := requiredStrIssues "title" r.title ++
    requiredStrIssues "date" r.date ++
    requiredStrIssues "participants" r.participants ++
    requiredStrIssues "scopeCovered" r.scopeCovered ++
    requiredStrIssues "keyLearnings" r.keyLearnings
  if issues.isEmpty then
    .ok ⟨r.title.getD [], r.date.getD [], r.participants.getD [],
      r.scopeCovered.getD [], r.keyLearnings.getD [],
      r.misconceptionsClarified, r.studentStrengths, r.gapsNextPriorities,
      r.suggestedNextSteps, r.questions, r.sources, r.compactRecap, r.name,
      r.email, r.chatId, r.sessionId, r.chatflowId⟩
  else .error issues

/-- A stored summary-report document with its creation timestamp. -/
structure ReportDoc where
  createdAt : Nat
  source : Str
  sourceId : Str
  payload : ReportPayload
  client : ClientInfo
deriving DecidableEq

/-- Model of `maybeSendReportEmail` (`summaryReportsController.ts`): skipped
when `env.summaryReportAlertTo` is unset; a failed send is only logged.  (The
`Source` section is always present, so the html-sections list is never
empty.) -/
def maybeSendReportEmail (env : Env) (sendOk : Bool) : Bool × List Str :=
  if env.summaryReportAlertTo.isEmpty then (false, [])
  else (true, if sendOk then []
    else [lit "Failed to send summary report alert email"])

/-- The response sent by a summary-report handler. -/
inductive ReportResp
  | docResp (status : Nat) (doc : ReportDoc)
  | forwarded (errs : List ValIssue)
deriving DecidableEq

/-- The outcome of a summary-report handler. -/
structure ReportOutcome where
  db : List ReportDoc
  emailAttempted : Bool
  warnLogs : List Str
  resp : ReportResp
deriving DecidableEq

/-- Model of `createSummaryReport` (`summaryReportsController.ts`,
lines 362-382): parse, store with source `manual` and the current timestamp,
maybe e-mail, respond 201 with the created document. -/
def createSummaryReport (env : Env) (db : List ReportDoc) (client : ClientInfo)
    (now : Nat) (sendOk : Bool)
    (parsed : Except (List ValIssue) ReportPayload) : ReportOutcome :=
  match parsed with
  | .error e => ⟨db, false, [], .forwarded e⟩
  | .ok body =>
    let doc : ReportDoc := ⟨now, lit "manual", [], body, client⟩
    let sent := maybeSendReportEmail env sendOk
    ⟨db ++ [doc], sent.1, sent.2, .docResp 201 doc⟩

/-- Newest-first order on stored summary reports. -/
def byCreatedAtDesc (a b : ReportDoc) : Prop := b.createdAt ≤ a.createdAt

instance : DecidableRel byCreatedAtDesc := fun a b =>
  Nat.decLe b.createdAt a.createdAt

instance : IsTotal ReportDoc byCreatedAtDesc :=
  ⟨fun a b => Or.symm (Nat.le_total a.createdAt b.createdAt)⟩

instance : IsTrans ReportDoc byCreatedAtDesc :=
  ⟨fun _ _ _ hab hbc => Nat.le_trans hbc hab⟩

/-- Model of `listSummaryReports` (`summaryReportsController.ts`,
lines 384-398): `find().sort(createdAt: -1).limit(200)`, i.e. the first 200
elements of the stored reports sorted newest first. -/
def listSummaryReports (db : List ReportDoc) : List ReportDoc :=
  (List.insertionSort byCreatedAtDesc db).take 200

/-- C10: `listSummaryReports` returns at most 200 reports regardless of how
many are stored, ordered by `createdAt` descending (most recently created
first), and every returned report is a stored one. -/
theorem claim_C10_listSummaryReports (db : List ReportDoc) :
    (listSummaryReports db).length ≤ 200 ∧
    (listSummaryReports db).Pairwise
      (fun a b => b.createdAt ≤ a.createdAt) ∧
    ∀ r ∈ listSummaryReports db, r ∈ db := by
  refine ⟨?_, ?_, ?_⟩
  · rw [listSummaryReports, List.length_take]
    exact min_le_left _ _
  · have hs : (List.insertionSort byCreatedAtDesc db).Pairwise byCreatedAtDesc :=
      List.sorted_insertionSort byCreatedAtDesc db
    exact List.Pairwise.sublist (List.take_sublist 200 _) hs
  · intro r hr
    have h1 : r ∈ List.insertionSort byCreatedAtDesc db :=
      (List.take_sublist 200 _).subset hr
    exact (List.perm_insertionSort byCreatedAtDesc db).mem_iff.mp h1

/-- C4: for every create request (student, issue, or summary report) whose
body fails schema validation, the handler persists no document and attempts
no notification e-mail; the validation error is forwarded to the error
middleware, so the stored data is exactly what it was before the request. -/
theorem claim_C4_validation_failure (env : Env) (sdb : List StoredStudent)
    (idb : List IssueDoc) (rdb : List ReportDoc) (client : ClientInfo)
    (id : Option Str) (sendOk : Bool) (now : Nat) (e : List ValIssue) :
    createStudent env sdb client (.error e) = ⟨sdb, false, .forwarded e⟩ ∧
    createStudentFromFlowise env sdb client id (.error e) =
      ⟨sdb, false, .forwarded e⟩ ∧
    createIssue env idb client sendOk (.error e) =
      ⟨idb, false, [], .forwarded e⟩ ∧
    createIssueFromFlowise env idb client sendOk (.error e) =
      ⟨idb, false, [], .forwarded e⟩ ∧
    createSummaryReport env rdb client now sendOk (.error e) =
      ⟨rdb, false, [], .forwarded e⟩ :=
  ⟨rfl, rfl, rfl, rfl, rfl⟩

/-- A concrete valid issue payload. -/
def issueSample : IssuePayload :=
  ⟨lit "Login broken", some (lit "Cannot log in"), none, none, none, none,
    none, none, none⟩

/-- Counterexample to C5 as stated: a Flowise create-issue request is not
answered with the created document; the 202 response carries only the
acknowledgement and the new document's id. -/
theorem claim_C5_counterexample :
    (createIssueFromFlowise envSample [] clientSample true
        (.ok issueSample)).resp ≠
      IssueResp.docResp 202
        (buildIssueDocument issueSample (lit "flowise") clientSample) := by
  decide

theorem issueEmailLines_ne_nil (source : Str) (issue : IssuePayload) :
    (issueEmailLines source issue).isEmpty = false := by
  simp [issueEmailLines]

theorem maybeSendIssueEmail_eval (env : Env) (source : Str)
    (issue : IssuePayload) (sendOk : Bool) :
    maybeSendIssueEmail env source issue sendOk =
      if env.issueAlertTo.isEmpty then (false, [])
      else (true,
        if sendOk then [] else [lit "Failed to send issue alert email"]) := by
  rw [maybeSendIssueEmail]
  by_cases h : env.issueAlertTo.isEmpty
  · simp [h]
  · simp [h, issueEmailLines_ne_nil]

/-- C5 (amended): for every valid create-issue request the response and the
stored documents are independent of the e-mail configuration and of the send
result; with `issueAlertTo` unset no send is attempted; a failed send only
adds a warning log; in all cases the document is persisted and the handler
responds 201 with the created document (manual) or 202 with an
acknowledgement carrying the created document's id (Flowise). -/
theorem claim_C5_createIssue_email_independent (env env' : Env)
    (db : List IssueDoc) (client : ClientInfo) (body : IssuePayload)
    (r r' : Bool) :
    ((createIssue env db client r (.ok body)).resp =
      (createIssue env' db client r' (.ok body)).resp) ∧
    ((createIssueFromFlowise env db client r (.ok body)).resp =
      (createIssueFromFlowise env' db client r' (.ok body)).resp) ∧
    (maybeSendIssueEmail { env with issueAlertTo := [] } (lit "manual") body r =
      (false, [])) ∧
    ((createIssue { env with issueAlertTo := [] } db client r
        (.ok body)).emailAttempted = false) ∧
    ((createIssue env db client true (.ok body)).warnLogs = []) ∧
    ((createIssue env db client false (.ok body)).warnLogs =
      if env.issueAlertTo.isEmpty then []
      else [lit "Failed to send issue alert email"]) ∧
    ((createIssue env db client false (.ok body)).emailAttempted =
      (createIssue env db client true (.ok body)).emailAttempted) ∧
    ((createIssue env db client r (.ok body)).db =
      db ++ [buildIssueDocument body (lit "manual") client]) ∧
    ((createIssue env db client r (.ok body)).resp =
      .docResp 201 (buildIssueDocument body (lit "manual") client)) ∧
    ((createIssueFromFlowise env db client r (.ok body)).db =
      db ++ [buildIssueDocument body (lit "flowise") client]) ∧
    ((createIssueFromFlowise env db client r (.ok body)).resp =
      .ack 202 true db.length) := by
  refine ⟨rfl, rfl, ?_, ?_, ?_, ?_, ?_, rfl, rfl, rfl, rfl⟩
  · rw [maybeSendIssueEmail_eval]
    simp
  · show (maybeSendIssueEmail { env with issueAlertTo := [] }
      (lit "manual") body r).1 = false
    rw [maybeSendIssueEmail_eval]
    simp
  · show (maybeSendIssueEmail env (lit "manual") body true).2 = []
    rw [maybeSendIssueEmail_eval]
    by_cases h : env.issueAlertTo.isEmpty <;> simp [h]
  · show (maybeSendIssueEmail env (lit "manual") body false).2 = _
    rw [maybeSendIssueEmail_eval]
    by_cases h : env.issueAlertTo.isEmpty <;> simp [h]
  · show (maybeSendIssueEmail env (lit "manual") body false).1 =
      (maybeSendIssueEmail env (lit "manual") body true).1
    rw [maybeSendIssueEmail_eval, maybeSendIssueEmail_eval]
    by_cases h : env.issueAlertTo.isEmpty <;> simp [h]

/-- A decimal digit character. -/
def natDigit (d : Nat) : Char :=
  match d % 10 with
  | 0 => '0'
  | 1 => '1'
  | 2 => '2'
  | 3 => '3'
  | 4 => '4'
  | 5 => '5'
  | 6 => '6'
  | 7 => '7'
  | 8 => '8'
  | _ => '9'

/-- Decimal rendering of a natural number (JavaScript string interpolation). -/
def natToStr (n : Nat) : Str :=
  if _h : n < 10 then [natDigit n]
  else natToStr (n / 10) ++ [natDigit (n % 10)]
termination_by n
decreasing_by
  exact Nat.div_lt_self (by omega) (by omega)

/-- Decimal rendering of an integer (JavaScript `String(value)`). -/
def intToStr (i : Int) : Str :=
  if i < 0 then '-' :: natToStr i.natAbs else natToStr i.natAbs

theorem aposChar_ne_natDigit (d : Nat) : aposChar ≠ natDigit d := by
  rw [natDigit]
  have h : d % 10 < 10 := Nat.mod_lt d (by omega)
  set k := d % 10 with hk
  interval_cases k <;> decide

theorem aposChar_not_mem_natToStr (n : Nat) : aposChar ∉ natToStr n := by
  induction n using Nat.strong_induction_on with
  | _ n ih =>
    rw [natToStr]
    by_cases h : n < 10
    · rw [dif_pos h]
      simp [aposChar_ne_natDigit n]
    · rw [dif_neg h]
      intro hmem
      rcases List.mem_append.1 hmem with h1 | h2
      · exact ih (n / 10) (Nat.div_lt_self (by omega) (by omega)) h1
      · exact aposChar_ne_natDigit (n % 10) (List.mem_singleton.1 h2)

/-- The enrolment fields of the student-submission e-mail payload. -/
structure SubEnrolment where
  subject : Str
  examBody : Str
  level : Str
  books : Option (List Str)
  examDates : Option (List Str)
deriving DecidableEq

/-- The `StudentSubmissionEmail` payload of
`src/services/emailTemplates/studentSubmission.ts`. -/
structure SubmissionPayload where
  name : Str
  nickname : Option Str
  email : Str
  age : Option Int
  guardianName : Option Str
  guardianEmail : Option Str
  enrolments : List SubEnrolment
  preferredColourForDyslexia : Option Str
  chatId : Option Str
  sessionId : Option Str
  chatflowId : Option Str
  source : Str
  sourceId : Option Str
deriving DecidableEq

/-- Model of `formatList` (`studentSubmission.ts`, lines 35-42). -/
def formatList (label : Str) (items : Option (List Str)) : Str :=
  match items with
  | none => []
  | some xs =>
    if xs.isEmpty then []
    else
      lit "<p><strong>" ++ label ++ lit ":</strong></p><ul>" ++
        concatAll (xs.map (fun item =>
          lit "<li>" ++ escapeHtml item ++ lit "</li>")) ++
        lit "</ul>"

/-- JavaScript `Array.prototype.join(sep)`. -/
def joinWith (sep : Str) : List Str → Str
  | [] => []
  | [x] => x
  | x :: y :: rest => x ++ sep ++ joinWith sep (y :: rest)

/-- JavaScript `x?.trim() || 'Not provided'` on the guardian fields. -/
def guardianShown : Option Str → Str
  | none => lit "Not provided"
  | some s => if (jsTrim s).isEmpty then lit "Not provided" else jsTrim s

/-- JavaScript `nickname || 'Not provided'` on the trimmed nickname. -/
def nicknameShown : Option Str → Str
  | none => lit "Not provided"
  | some n => if n.isEmpty then lit "Not provided" else n

/-- The five optional metadata paragraphs (`metaHtml` in the source), before
filtering. -/
def metaEntries (payload : SubmissionPayload) : List Str :=
  [if truthy (payload.age.map intToStr) then
      lit "<p><strong>Age:</strong> " ++
        escapeHtml (orEmpty (payload.age.map intToStr)) ++ lit "</p>"
    else [],
    if truthy (payload.preferredColourForDyslexia.map jsTrim) then
      lit "<p><strong>Preferred colour:</strong> " ++
        escapeHtml (orEmpty (payload.preferredColourForDyslexia.map jsTrim)) ++
        lit "</p>"
    else [],
    if truthy payload.chatId then
      lit "<p><strong>Chat ID:</strong> " ++
        escapeHtml (orEmpty payload.chatId) ++ lit "</p>"
    else [],
    if truthy payload.sessionId then
      lit "<p><strong>Session ID:</strong> " ++
        escapeHtml (orEmpty payload.sessionId) ++ lit "</p>"
    else [],
    if truthy payload.chatflowId then
      lit "<p><strong>Chatflow ID:</strong> " ++
        escapeHtml (orEmpty payload.chatflowId) ++ lit "</p>"
    else []]

/-- `metaHtml`: the truthy metadata paragraphs joined with newlines. -/
def metaHtmlOf (payload : SubmissionPayload) : Str :=
  joinWith (lit "\n") ((metaEntries payload).filter (fun s => !s.isEmpty))

/-- `sourceDetails`: the escaped source, with the escaped webhook id when
present. -/
def sourceDetails (payload : SubmissionPayload) : Str :=
  if truthy payload.sourceId then
    escapeHtml payload.source ++ lit " (id: " ++
      escapeHtml (orEmpty payload.sourceId) ++ lit ")"
  else escapeHtml payload.source

/-- One enrolment section of the HTML body (inter-tag whitespace of the
template literal omitted). -/
def enrolmentSectionHtml (idx : Nat) (enrolment : SubEnrolment) : Str :=
  lit "<section style=\"margin-bottom: 20px;\"><p><strong>Enrolment " ++
    natToStr (idx + 1) ++ lit ":</strong><br />" ++
    escapeHtml enrolment.subject ++ lit " &middot; " ++
    escapeHtml enrolment.examBody ++ lit " (" ++
    escapeHtml enrolment.level ++ lit ")</p>" ++
    formatList (lit "Study resources") enrolment.books ++
    formatList (lit "Planned exam dates") enrolment.examDates ++
    lit "</section>"

/-- `enrolmentsHtml`: the sections of all enrolments, numbered from 1. -/
def enrolmentsHtmlAux : Nat → List SubEnrolment → Str
  | _, [] => []
  | i, e :: rest => enrolmentSectionHtml i e ++ enrolmentsHtmlAux (i + 1) rest

/-- Model of the HTML body built by `buildStudentSubmissionEmail`
(`studentSubmission.ts`, lines 60-139; inter-tag whitespace of the template
literal omitted).  `timestamp` stands for `new Date().toISOString()`. -/
def buildStudentSubmissionEmailHtml (env : Env) (timestamp : Str)
    (payload : SubmissionPayload) : Str :=
  lit "<div style=\"font-family: Arial, sans-serif; max-width: 640px; margin: 0 auto;\"><h1 style=\"font-size: 20px;\">New student submission received</h1><p><strong>Name:</strong> " ++
    escapeHtml payload.name ++
    lit "</p><p><strong>Nickname:</strong> " ++
    escapeHtml (nicknameShown (payload.nickname.map jsTrim)) ++
    lit "</p><p><strong>Email:</strong> <a href=\"mailto:" ++
    escapeHtml payload.email ++ lit "\">" ++
    escapeHtml payload.email ++
    lit "</a></p><p><strong>Guardian:</strong> " ++
    escapeHtml (guardianShown payload.guardianName) ++ lit " (" ++
    escapeHtml (guardianShown payload.guardianEmail) ++ lit ")</p>" ++
    metaHtmlOf payload ++
    lit "<p><strong>Source:</strong> " ++ sourceDetails payload ++
    lit "</p><hr style=\"margin: 24px 0;\" />" ++
    enrolmentsHtmlAux 0 payload.enrolments ++
    lit "<hr style=\"margin: 24px 0;\" /><p style=\"font-size: 12px; color: #555;\">Environment: " ++
    escapeHtml env.nodeEnv ++ lit " | Sent at " ++ escapeHtml timestamp ++
    lit "</p></div>"

theorem not_mem_append_of {c : Char} {a b : Str} (ha : c ∉ a) (hb : c ∉ b) :
    c ∉ a ++ b := by
  intro h
  rcases List.mem_append.1 h with h1 | h1
  · exact ha h1
  · exact hb h1

theorem apos_not_mem_concatAll {l : List Str}
    (hl : ∀ x ∈ l, aposChar ∉ x) : aposChar ∉ concatAll l := by
  induction l with
  | nil => simp [concatAll]
  | cons x xs ih =>
    rw [show concatAll (x :: xs) = x ++ concatAll xs from rfl]
    exact not_mem_append_of (hl x (List.mem_cons_self x xs))
      (ih fun y hy => hl y (List.mem_cons_of_mem x hy))

theorem apos_not_mem_formatList {label : Str} (hla : aposChar ∉ label)
    (items : Option (List Str)) : aposChar ∉ formatList label items := by
  cases items with
  | none => simp [formatList]
  | some xs =>
    rw [formatList]
    by_cases h : xs.isEmpty
    · simp [h]
    · have h' : (xs.isEmpty : Bool) = false := by simpa using h
      simp only [h', Bool.false_eq_true, if_false]
      refine not_mem_append_of (not_mem_append_of (not_mem_append_of
        (not_mem_append_of (by decide) hla) (by decide)) ?_) (by decide)
      exact apos_not_mem_concatAll (fun y hy => by
        obtain ⟨item, -, rfl⟩ := List.mem_map.1 hy
        exact not_mem_append_of (not_mem_append_of (by decide)
          (apos_not_mem_escapeHtml item)) (by decide))

theorem apos_not_mem_joinWith {sep : Str} (hsep : aposChar ∉ sep)
    {l : List Str} (hl : ∀ x ∈ l, aposChar ∉ x) : aposChar ∉ joinWith sep l := by
  induction l with
  | nil => simp [joinWith]
  | cons x xs ih =>
    cases xs with
    | nil => simpa [joinWith] using hl x (List.mem_cons_self x [])
    | cons y ys =>
      rw [joinWith]
      exact not_mem_append_of (not_mem_append_of
        (hl x (List.mem_cons_self x (y :: ys))) hsep)
        (ih fun z hz => hl z (List.mem_cons_of_mem x hz))

theorem apos_not_mem_metaHtmlOf (payload : SubmissionPayload) :
    aposChar ∉ metaHtmlOf payload := by
  rw [metaHtmlOf]
  refine apos_not_mem_joinWith (by decide) ?_
  intro x hx
  have hx' := List.mem_of_mem_filter hx
  rw [metaEntries] at hx'
  simp only [List.mem_cons, List.not_mem_nil, or_false] at hx'
  rcases hx' with h | h | h | h | h <;> subst h <;> split <;>
    first
      | exact List.not_mem_nil aposChar
      | ((repeat' apply not_mem_append_of) <;>
          first
            | exact apos_not_mem_escapeHtml _
            | decide)

theorem apos_not_mem_sourceDetails (payload : SubmissionPayload) :
    aposChar ∉ sourceDetails payload := by
  rw [sourceDetails]
  split
  · exact not_mem_append_of (not_mem_append_of (not_mem_append_of
      (apos_not_mem_escapeHtml _) (by decide)) (apos_not_mem_escapeHtml _))
      (by decide)
  · exact apos_not_mem_escapeHtml _

theorem apos_not_mem_enrolmentSection (idx : Nat) (enrolment : SubEnrolment) :
    aposChar ∉ enrolmentSectionHtml idx enrolment := by
  rw [enrolmentSectionHtml]
  repeat' apply not_mem_append_of
  all_goals
    first
      | exact apos_not_mem_escapeHtml _
      | exact aposChar_not_mem_natToStr _
      | exact apos_not_mem_formatList (by decide) _
      | decide

theorem apos_not_mem_enrolmentsHtmlAux (i : Nat) (l : List SubEnrolment) :
    aposChar ∉ enrolmentsHtmlAux i l := by
  induction l generalizing i with
  | nil => simp [enrolmentsHtmlAux]
  | cons e rest ih =>
    rw [enrolmentsHtmlAux]
    exact not_mem_append_of (apos_not_mem_enrolmentSection i e) (ih (i + 1))

/-- C7: every user-supplied string field interpolated by
`buildStudentSubmissionEmail` into the HTML body passes through `escapeHtml`
(so the HTML never contains a single quote, the one dangerous character the
fixed template itself never uses), and for every string the output of
`escapeHtml` contains no `<`, `>`, double-quote or single-quote character. -/
theorem claim_C7_studentSubmission_escapes :
    (∀ s : Str, '<' ∉ escapeHtml s ∧ '>' ∉ escapeHtml s ∧
      quotChar ∉ escapeHtml s ∧ aposChar ∉ escapeHtml s) ∧
    (∀ (env : Env) (timestamp : Str) (payload : SubmissionPayload),
      aposChar ∉ buildStudentSubmissionEmailHtml env timestamp payload) := by
  constructor
  · intro s
    exact ⟨lt_not_mem_escapeHtml s, gt_not_mem_escapeHtml s,
      quot_not_mem_escapeHtml s, apos_not_mem_escapeHtml s⟩
  · intro env timestamp payload
    rw [buildStudentSubmissionEmailHtml]
    repeat' apply not_mem_append_of
    all_goals
      first
        | exact apos_not_mem_escapeHtml _
        | exact apos_not_mem_metaHtmlOf payload
        | exact apos_not_mem_sourceDetails payload
        | exact apos_not_mem_enrolmentsHtmlAux 0 payload.enrolments
        | decide
